import Mathlib

/-!
Verification of the RenoTracker repository (a home-renovation tracking web
application) against its natural-language specification.  The Python source
under src/app is shallowly embedded: pure helpers become Lean functions,
database-touching handlers become explicit state-passing functions on a
record of tables, and the commit/rollback behaviour is made explicit through
a commit-success flag.  Machine strings are Lean strings; Python string
primitives (strip, lower, split, replace) are modelled character-wise for
the ASCII fragment the application manipulates.
-/

namespace RenoTracker

/-! ## Python string primitives (models of str.strip, str.lower, str.split,
str.replace used by src/app/main.py and src/app/seed.py). -/

/-- Characters Python's str.strip() removes: space, tab, newline, carriage
return, vertical tab, form feed (ASCII fragment). -/
def pyIsSpace (c : Char) : Bool :=
  c == ' ' || c == '\t' || c == '\n' || c == '\r' ||
  c == Char.ofNat 11 || c == Char.ofNat 12

/-- Drop trailing characters satisfying `p` (recursive formulation). -/
def dropTrailWhile (p : Char → Bool) : List Char → List Char
  | [] => []
  | c :: cs =>
    let r := dropTrailWhile p cs
    if r.isEmpty && p c then [] else c :: r

/-- Model of Python `str.strip()` on the character list. -/
def pyStripList (l : List Char) : List Char :=
  dropTrailWhile pyIsSpace (l.dropWhile pyIsSpace)

/-- Model of Python `str.strip()`. -/
def pyStrip (s : String) : String :=
  String.mk (pyStripList s.data)

/-- Model of Python `str.lower()` (ASCII case folding, which is all the
application's vocabulary of statuses, document types and tags needs). -/
def pyLower (s : String) : String :=
  String.mk (s.data.map Char.toLower)

/-- Model of `_clean_str` (src/app/main.py line 72): trim a form string. -/
def _clean_str (v : String) : String := pyStrip v

/-- Model of the `_clean_str(x) or None` idiom: an empty-after-trim string
becomes an absent value. -/
def optOfStr (v : String) : Option String :=
  let c := _clean_str v
  if c == "" then none else some c

/-- Model of Python `x or default` on an optional string: `None` and the
empty string are falsy. -/
def pyOr (v : Option String) (d : String) : String :=
  match v with
  | none => d
  | some s => if s == "" then d else s

/-- Split a character list at every separator character recognised by `sep`,
keeping empty segments, exactly as Python `str.split(sep)` does for a
one-character separator. -/
def splitOnPred (sep : Char → Bool) : List Char → List (List Char)
  | [] => [[]]
  | c :: cs =>
    if sep c then [] :: splitOnPred sep cs
    else
      match splitOnPred sep cs with
      | [] => [[c]]
      | h :: t => (c :: h) :: t

/-! ## Tag normalization (src/app/main.py `_norm_tags`, lines 116-131) and
the list de-duplication loops shared with `_parse_task_ids`. -/

/-- Membership test on a list of strings (models Python `in` on the `seen`
set of the de-duplication loops). -/
def strMem (x : String) : List String → Bool
  | [] => false
  | y :: ys => (x == y) || strMem x ys

/-- One step of the de-duplication loop of `_norm_tags` /
`_parse_task_ids`: the accumulator carries the `seen` key set and the `out`
list. -/
def dedupeStep (key : String → String) (acc : List String × List String)
    (p : String) : List String × List String :=
  let k := key p
  if strMem k acc.1 then acc else (k :: acc.1, acc.2 ++ [p])

/-- The de-duplication loop: keep the first occurrence of each `key`-class,
preserving order and the first-seen original spelling. -/
def dedupeLoop (key : String → String) (parts : List String) : List String :=
  (parts.foldl (dedupeStep key) ([], [])).2

/-- Model of `_norm_tags` (src/app/main.py lines 116-131): strip the raw
value, replace semicolons by commas, split on commas, trim tokens, drop
empties, de-duplicate case-insensitively keeping first-seen casing, rejoin
with commas; `none` when nothing remains. -/
def _norm_tags (v : String) : Option String :=
  let raw := pyStrip v
  if raw == "" then none
  else
    let parts := (splitOnPred (fun c => c == ',')
        (raw.data.map (fun c => if c == ';' then ',' else c))).map
        (fun t => String.mk (pyStripList t))
    let parts := parts.filter (fun p => !(p == ""))
    if parts.isEmpty then none
    else some (String.intercalate "," (dedupeLoop pyLower parts))

/-- First-seen de-duplication written as the specification describes it:
keep each token and discard every later token with the same lowercased
form. -/
def dedupeFirstSeen (key : String → String) : List String → List String
  | [] => []
  | p :: ps => p :: dedupeFirstSeen key (ps.filter fun q => !(key q == key p))
  termination_by l => l.length
  decreasing_by
    simp only [List.length_cons]
    exact Nat.lt_succ_of_le (List.length_filter_le _ _)

/-- Tag normalization as §4.9 of the specification words it: split the raw
input on commas and semicolons, trim each token, drop empty tokens,
de-duplicate case-insensitively while preserving the first-seen original
casing and order, rejoin with commas; absent entirely if no tokens
remain. -/
def normTagsSpec (v : String) : Option String :=
  let toks := ((splitOnPred (fun c => c == ',' || c == ';') v.data).map
      (fun t => String.mk (pyStripList t))).filter (fun t => !(t == ""))
  let uniq := dedupeFirstSeen pyLower toks
  if uniq.isEmpty then none else some (String.intercalate "," uniq)

/-! ## Generic row-list operations shared by the handler embeddings.
`updFirst` models mutating the single row fetched by primary key with
`db.get`; `rmFirst` models `db.delete` of that row. -/

/-- Update the first element satisfying `p` (the object SQLAlchemy's
`db.get` returned), leaving the rest unchanged. -/
def updFirst {α : Type} (p : α → Bool) (f : α → α) : List α → List α
  | [] => []
  | x :: xs => if p x then f x :: xs else x :: updFirst p f xs

/-- Remove the first element satisfying `p`. -/
def rmFirst {α : Type} (p : α → Bool) : List α → List α
  | [] => []
  | x :: xs => if p x then xs else x :: rmFirst p xs

/-! ## Configuration Provider (src/app/config.py). -/

/-- The process environment: `none` models an unset variable, `some s` a
variable set to `s` (possibly empty). -/
def Env : Type := String → Option String

/-- Model of `os.getenv(k, d)`: the default applies only when the variable
is unset, not when it is empty. -/
def getenvD (env : Env) (k d : String) : String := (env k).getD d

/-- Model of Python `str.rstrip(c)` for a single character. -/
def rstripChar (c : Char) (s : String) : String :=
  String.mk (dropTrailWhile (fun x => x == c) s.data)

/-- The `Settings` dataclass of src/app/config.py. -/
structure Settings where
  app_env : String
  database_url : String
  session_secret : String
  minio_endpoint : String
  minio_public_endpoint : String
  minio_access_key : String
  minio_secret_key : String
  minio_bucket : String
  admin_email : String
  admin_password : String
  admin_name : String
  admin_update : Bool
deriving DecidableEq

/-- Construction of the settings snapshot from the environment, field by
field as src/app/config.py lines 6-28 write it. -/
def settingsOf (env : Env) : Settings where
  app_env := getenvD env "APP_ENV" "prod"
  database_url := getenvD env "DATABASE_URL"
    "postgresql+psycopg://reno:reno_pass_change_me@db:5432/renotracker"
  session_secret := getenvD env "SESSION_SECRET" "change_me"
  minio_endpoint := rstripChar '/' (getenvD env "MINIO_ENDPOINT" "http://minio:9000")
  minio_public_endpoint := rstripChar '/' (getenvD env "MINIO_PUBLIC_ENDPOINT" "")
  minio_access_key := getenvD env "MINIO_ACCESS_KEY" ""
  minio_secret_key := getenvD env "MINIO_SECRET_KEY" ""
  minio_bucket := getenvD env "MINIO_BUCKET" "renovation"
  admin_email := getenvD env "ADMIN_EMAIL" "jon@local"
  admin_password := getenvD env "ADMIN_PASSWORD" "vampire12"
  admin_name := getenvD env "ADMIN_NAME" "Jon"
  admin_update := getenvD env "ADMIN_UPDATE" "0" == "1"

/-! ## Admin bootstrap (src/app/seed.py `ensure_admin_user`). -/

/-- Modelled from the spec: src/app/security.py is imported by seed.py and
main.py but is not part of the source tree.  §4.4 specifies an opaque
one-way digest function `hash(plaintext) -> digest string` with no further
policy; it is modelled as an injective tagging of the plaintext. -/
def hash_password (p : String) : String := "pbkdf2-sha256$" ++ p

/-- A row of the `users` table as the seed routine sees it (the
database-assigned id and timestamps play no role in seeding). -/
structure SeedUser where
  email : String
  password_hash : String
  display_name : String
deriving DecidableEq

/-- `desired_email` of src/app/seed.py line 16:
`(os.getenv("ADMIN_EMAIL") or "admin@local").strip().lower()`. -/
def desired_email (env : Env) : String :=
  pyLower (pyStrip (pyOr (env "ADMIN_EMAIL") "admin@local"))

/-- `desired_password` of src/app/seed.py line 17. -/
def desired_password (env : Env) : String :=
  pyOr (env "ADMIN_PASSWORD") "admin"

/-- `desired_name` of src/app/seed.py line 18. -/
def desired_name (env : Env) : String :=
  pyOr (env "ADMIN_NAME") "Admin"

/-- `do_update` of src/app/seed.py line 19:
`(os.getenv("ADMIN_UPDATE") or "0").strip() == "1"`. -/
def admin_do_update (env : Env) : Bool :=
  pyStrip (pyOr (env "ADMIN_UPDATE") "0") == "1"

/-- Model of `ensure_admin_user` (src/app/seed.py lines 6-54).  The users
table is a list in insertion order; `.first()` is `List.find?`.  Branches in
source order: fresh install creates the desired user; a default-email user
migrates to the desired identity when reconciliation is requested; an
existing desired-email user is refreshed when reconciliation is requested;
otherwise nothing changes. -/
def ensure_admin_user (env : Env) (db : List SeedUser) : List SeedUser :=
  let de := desired_email env
  let user := db.find? (fun u => u.email == de)
  let defaultUser := db.find? (fun u => u.email == "admin@local")
  match user, defaultUser with
  | none, none =>
      db ++ [{ email := de, password_hash := hash_password (desired_password env),
               display_name := desired_name env }]
  | none, some _ =>
      if admin_do_update env then
        updFirst (fun u => u.email == "admin@local")
          (fun u => { u with email := de,
                             display_name := desired_name env,
                             password_hash := hash_password (desired_password env) }) db
      else db
  | some _, _ =>
      if admin_do_update env then
        updFirst (fun u => u.email == de)
          (fun u => { u with display_name := desired_name env,
                             password_hash := hash_password (desired_password env) }) db
      else db

/-- The environment of a first boot with no configuration: every variable
unset. -/
def noEnv : Env := fun _ => none

/-! ## Object Storage Gateway (src/app/storage.py). -/

/-- One stored object: key, body, optional content type. -/
structure ObjRec where
  key : String
  body : String
  content_type : Option String
deriving DecidableEq

/-- The external S3-compatible store: existing buckets and stored
objects.  External-store failures (network, permissions) are outside the
model; the store itself always accepts well-formed calls. -/
structure Store where
  buckets : List String
  objects : List ObjRec
deriving DecidableEq

/-- Errors a storage operation can raise in the process: the explicit
`RuntimeError("S3/MinIO not configured")`, and the `NameError` raised when
`delete_object` resolves the undefined module name `get_s3`. -/
inductive StorageErr where
  | notConfigured
  | nameError
deriving DecidableEq

/-- Result of a storage operation returning a store state. -/
inductive StoreOut where
  | ok (st : Store)
  | fail (e : StorageErr)
deriving DecidableEq

/-- Result of presigned-URL generation. -/
inductive UrlOut where
  | ok (url : String)
  | fail (e : StorageErr)
deriving DecidableEq

/-- `s3_enabled` (src/app/storage.py lines 11-12): all four of endpoint,
access key, secret key and bucket are non-empty (Python string
truthiness). -/
def s3_enabled (s : Settings) : Bool :=
  !(s.minio_endpoint == "") && !(s.minio_access_key == "") &&
  !(s.minio_secret_key == "") && !(s.minio_bucket == "")

/-- `ensure_bucket_exists` (src/app/storage.py lines 41-51): no-op when
unconfigured; otherwise create the bucket when the existence check fails. -/
def ensure_bucket_exists (s : Settings) (st : Store) : StoreOut :=
  if !(s3_enabled s) then .ok st
  else if strMem s.minio_bucket st.buckets then .ok st
  else .ok { st with buckets := st.buckets ++ [s.minio_bucket] }

/-- `upload_bytes` (src/app/storage.py lines 54-62): no-op when
unconfigured; otherwise put the object under the key via the internal
client. -/
def upload_bytes (s : Settings) (key data : String) (content_type : Option String)
    (st : Store) : StoreOut :=
  if !(s3_enabled s) then .ok st
  else .ok { st with objects := st.objects ++ [{ key := key, body := data,
                                                 content_type := content_type }] }

/-- `presigned_get_url` (src/app/storage.py lines 65-77): raises the
configuration error when unconfigured; otherwise signs against the public
endpoint, falling back to the internal one.  The boto3 URL itself is
external; it is modelled as the endpoint, bucket and key joined
path-style. -/
def presigned_get_url (s : Settings) (key : String) (expires_seconds : Nat) :
    UrlOut :=
  if !(s3_enabled s) then .fail .notConfigured
  else
    let endpoint := if s.minio_public_endpoint == "" then s.minio_endpoint
                    else s.minio_public_endpoint
    .ok (endpoint ++ "/" ++ s.minio_bucket ++ "/" ++ key ++ "?expires=" ++
         toString expires_seconds)

/-- `delete_object` (src/app/storage.py lines 79-83): returns immediately
when unconfigured; when configured it evaluates `get_s3()`, a name defined
nowhere in the module (the defined constructors are `get_s3_internal` and
`get_s3_public_for_signing`), so Python raises `NameError` before any store
call is made. -/
def delete_object (s : Settings) (key : String) (st : Store) : StoreOut :=
  if !(s3_enabled s) then .ok st
  else .fail .nameError

/-! ## Data model rows (src/app/models.py).  Timestamps are abstract ticks
(`Nat`); dates are abstract day numbers; monetary values are exact
rationals, the model of Python `Decimal` fixed-point arithmetic. -/

/-- Monetary value: Python `Decimal` is exact, so a rational. -/
abbrev Money := Rat

/-- A `users` row (the columns the embedded handlers touch). -/
structure UserR where
  id : String
  email : String
  active_project_id : Option String
deriving DecidableEq

/-- A `projects` row. -/
structure ProjectR where
  id : String
  name : String
  description : Option String
  currency : String
  is_archived : Bool
  created_at : Nat
  updated_at : Nat
deriving DecidableEq

/-- A `rooms` row. -/
structure RoomR where
  id : String
  project_id : String
  name : String
  floor : Option String
  status : Option String
  created_at : Nat
  updated_at : Nat
deriving DecidableEq

/-- A `tasks` row. -/
structure TaskR where
  id : String
  project_id : String
  room_id : Option String
  title : String
  description : Option String
  due_date : Option Nat
  priority : Int
  status : String
  created_at : Nat
  updated_at : Nat
  completed_at : Option Nat
deriving DecidableEq

/-- An `expenses` row. -/
structure ExpenseR where
  id : String
  project_id : String
  room_id : Option String
  task_id : Option String
  purchase_date : Nat
  gross_amount : Money
  description : String
  vat_rate : Option Money
  vat_amount : Option Money
  net_amount : Option Money
  payment_method : Option String
  vendor : Option String
  notes : Option String
  is_refund : Bool
  created_at : Nat
  updated_at : Nat
deriving DecidableEq

/-- A `documents` row. -/
structure DocumentR where
  id : String
  project_id : String
  room_id : Option String
  expense_id : Option String
  doc_type : String
  photo_group : Option String
  title : Option String
  notes : Option String
  tags : Option String
  original_filename : Option String
  content_type : Option String
  size_bytes : Option Nat
  s3_key : String
  created_at : Nat
  updated_at : Nat
deriving DecidableEq

/-- A `document_tasks` join row. -/
structure DocumentTaskR where
  document_id : String
  task_id : String
  created_at : Nat
deriving DecidableEq

/-- The relational database state: one list per table, in row order. -/
structure DB where
  users : List UserR
  projects : List ProjectR
  rooms : List RoomR
  tasks : List TaskR
  expenses : List ExpenseR
  documents : List DocumentR
  document_tasks : List DocumentTaskR
deriving DecidableEq

/-! ## HTTP handler embedding (src/app/main.py).

Each state-changing handler becomes a function from its form fields and the
database state to an outcome.  The `_require_user_and_project` guard (lines
86-97) has already fired: handlers receive an `AuthUser` carrying the
resolved active project id.  `utcnow()` is the `now` parameter; `uuid4()`
values are the `newId`-style parameters.  `commitOk` is the commit oracle:
`db.commit()` succeeds exactly when it is `true`.  A handler that wraps its
commit in try/except answers the rollback redirect on failure; a handler
with a bare commit lets the failure escape (`HOut.raised`). -/

/-- An authenticated user that passed `_require_user_and_project`. -/
structure AuthUser where
  id : String
  active_project_id : String
deriving DecidableEq

/-- The responses the embedded handlers produce. -/
inductive Response where
  | redirect (url : String)
deriving DecidableEq

/-- The exception a failing `db.commit()` raises when no handler catches
it. -/
inductive HandlerError where
  | commitFailed
deriving DecidableEq

/-- Outcome of a database handler: a response with the committed database
state, or an uncaught exception. -/
inductive HOut where
  | ok (resp : Response) (db : DB)
  | raised (e : HandlerError)
deriving DecidableEq

/-- A commit wrapped in try/except (the rooms/expenses/tasks pattern): on
failure the transaction is rolled back — the durable state stays `db0` —
and the handler redirects to `errUrl`. -/
def tryCommit (commitOk : Bool) (db0 dbNew : DB) (okUrl errUrl : String) : HOut :=
  if commitOk then .ok (.redirect okUrl) dbNew
  else .ok (.redirect errUrl) db0

/-- A bare commit (no try/except): on failure the exception escapes the
handler. -/
def bareCommit (commitOk : Bool) (dbNew : DB) (okUrl : String) : HOut :=
  if commitOk then .ok (.redirect okUrl) dbNew
  else .raised .commitFailed

/-- Model of Python `x or default` where `x` is an optional string column
value. -/
def strOr (v : Option String) (d : String) : String :=
  match v with
  | none => d
  | some s => if s == "" then d else s

/-- `_norm_doc_type` (src/app/main.py lines 100-104). -/
def _norm_doc_type (v : String) : String :=
  let v := let c := pyLower (_clean_str v); if c == "" then "receipt" else c
  if !(strMem v ["receipt", "photo", "warranty", "paperwork", "recipe"]) then "receipt"
  else v

/-- `_norm_photo_group` (src/app/main.py lines 107-113). -/
def _norm_photo_group (doc_type : String) (v : String) : Option String :=
  if !(doc_type == "photo") then none
  else
    let pg := let c := pyLower (_clean_str v); if c == "" then "before" else c
    if !(strMem pg ["before", "during", "after"]) then some "before"
    else some pg

/-- `_parse_task_ids` (src/app/main.py lines 134-149) on the list-valued
form case: stringify and trim each value, drop empties, de-duplicate
exactly, preserving order. -/
def _parse_task_ids (task_ids : List String) : List String :=
  let cleaned := (task_ids.map _clean_str).filter (fun s => !(s == ""))
  dedupeLoop (fun x => x) cleaned

/-! ### Rooms handlers (src/app/main.py lines 475-597). -/

/-- Substring test over character lists, the model of Python `in` on
strings. -/
def isSubChars (needle : List Char) : List Char → Bool
  | [] => needle.isEmpty
  | c :: cs => needle.isPrefixOf (c :: cs) || isSubChars needle cs

/-- Model of Python `needle in hay` for strings. -/
def strContains (hay needle : String) : Bool :=
  isSubChars needle.data hay.data

/-- `_is_unique_violation` (src/app/main.py lines 76-78): inspect the
lowercased exception message for the Postgres unique-violation wording or
the generic unique/violat pattern. -/
def _is_unique_violation (msg : String) : Bool :=
  let m := pyLower msg
  strContains m "duplicate key value violates unique constraint" ||
  (strContains m "unique" && strContains m "violat")

/-- The exception a failing commit raised, as `rooms_create` classifies it:
whether it is an `IntegrityError`, and its `str(ex)` message. -/
structure ExcInfo where
  integrity_error : Bool
  message : String
deriving DecidableEq

/-- `rooms_create` (lines 475-523): blank name and pre-emptive duplicate
checks, then insert and commit.  Its commit oracle carries the raised
exception (`none` = commit succeeded): an `IntegrityError` matching the
unique-violation heuristic maps to the "duplicate" code, every other
failure to "save_failed", rolled back either way. -/
def rooms_create (commitExc : Option ExcInfo) (now : Nat) (newId : String)
    (user : AuthUser) (name floor status : String) (db : DB) : HOut :=
  let room_name := _clean_str name
  if room_name == "" then .ok (.redirect "/rooms?err=missing_name") db
  else if db.rooms.any (fun x => x.project_id == user.active_project_id &&
        pyLower x.name == pyLower room_name) then
    .ok (.redirect "/rooms?err=duplicate") db
  else
    let r : RoomR := {
      id := newId,
      project_id := user.active_project_id,
      name := room_name,
      floor := optOfStr floor,
      status := optOfStr status,
      created_at := now,
      updated_at := now }
    match commitExc with
    | none => .ok (.redirect "/rooms") { db with rooms := db.rooms ++ [r] }
    | some ex =>
      if ex.integrity_error then
        if _is_unique_violation ex.message then
          .ok (.redirect "/rooms?err=duplicate") db
        else .ok (.redirect "/rooms?err=save_failed") db
      else .ok (.redirect "/rooms?err=save_failed") db

/-- `rooms_update` (lines 525-567). -/
def rooms_update (commitOk : Bool) (now : Nat) (user : AuthUser)
    (room_id name floor status : String) (db : DB) : HOut :=
  match db.rooms.find? (fun r => r.id == room_id) with
  | none => .ok (.redirect "/rooms") db
  | some r =>
    if r.project_id != user.active_project_id then .ok (.redirect "/rooms") db
    else
      let room_name := _clean_str name
      if room_name == "" then .ok (.redirect "/rooms?err=missing_name") db
      else if db.rooms.any (fun x => x.project_id == user.active_project_id &&
            pyLower x.name == pyLower room_name && x.id != r.id) then
        .ok (.redirect "/rooms?err=duplicate") db
      else
        let rooms' := updFirst (fun x => x.id == room_id)
          (fun x => { x with name := room_name, floor := optOfStr floor,
                             status := optOfStr status, updated_at := now }) db.rooms
        tryCommit commitOk db { db with rooms := rooms' }
          "/rooms" "/rooms?err=save_failed"

/-- `rooms_delete` (lines 570-597): unlink tasks, expenses and documents of
the active project that reference the room, then delete the room row. -/
def rooms_delete (commitOk : Bool) (now : Nat) (user : AuthUser)
    (room_id : String) (db : DB) : HOut :=
  match db.rooms.find? (fun r => r.id == room_id) with
  | none => .ok (.redirect "/rooms") db
  | some r =>
    if r.project_id != user.active_project_id then .ok (.redirect "/rooms") db
    else
      let db' := { db with
        tasks := db.tasks.map (fun t =>
          if t.project_id == user.active_project_id && t.room_id == some r.id then
            { t with room_id := none } else t),
        expenses := db.expenses.map (fun e =>
          if e.project_id == user.active_project_id && e.room_id == some r.id then
            { e with room_id := none } else e),
        documents := db.documents.map (fun d =>
          if d.project_id == user.active_project_id && d.room_id == some r.id then
            { d with room_id := none } else d),
        rooms := rmFirst (fun x => x.id == r.id) db.rooms }
      tryCommit commitOk db db' "/rooms" "/rooms?err=delete_failed"

/-! ### Expense handlers (src/app/main.py lines 658-791).  The form's
decimal fields arrive as strings and pass through `Decimal(...)`; the
embedding takes them already parsed as exact rationals, with `none`
modelling a blank-after-trim optional field. -/

/-- `expenses_create` (lines 658-709). -/
def expenses_create (commitOk : Bool) (now : Nat) (newId : String)
    (user : AuthUser) (purchase_date : Nat) (gross_amount : Money)
    (description room_id task_id : String)
    (vat_rate vat_amount : Option Money)
    (payment_method vendor notes : String) (db : DB) : HOut :=
  let net : Option Money := match vat_amount with
    | some va => some (gross_amount - va)
    | none => none
  let e : ExpenseR := {
    id := newId,
    project_id := user.active_project_id,
    room_id := optOfStr room_id,
    task_id := optOfStr task_id,
    purchase_date := purchase_date,
    gross_amount := gross_amount,
    description := _clean_str description,
    vat_rate := vat_rate,
    vat_amount := vat_amount,
    net_amount := net,
    payment_method := optOfStr payment_method,
    vendor := optOfStr vendor,
    notes := optOfStr notes,
    is_refund := false,
    created_at := now,
    updated_at := now }
  tryCommit commitOk db { db with expenses := db.expenses ++ [e] }
    "/expenses" "/expenses?err=save_failed"

/-- The row mutation `expenses_update` lines 741-755 perform on the fetched
expense. -/
def expenseUpdateUpd (purchase_date : Nat) (gross_amount : Money)
    (description room_id task_id : String) (vat_rate vat_amount : Option Money)
    (payment_method vendor notes : String) (now : Nat) (x : ExpenseR) :
    ExpenseR :=
  let net : Option Money := match vat_amount with
    | some va => some (gross_amount - va)
    | none => none
  { x with
    purchase_date := purchase_date,
    gross_amount := gross_amount,
    description := _clean_str description,
    room_id := optOfStr room_id,
    task_id := optOfStr task_id,
    vat_rate := vat_rate,
    vat_amount := vat_amount,
    net_amount := net,
    payment_method := optOfStr payment_method,
    vendor := optOfStr vendor,
    notes := optOfStr notes,
    updated_at := now }

/-- `expenses_update` (lines 711-763). -/
def expenses_update (commitOk : Bool) (now : Nat) (user : AuthUser)
    (expense_id : String) (purchase_date : Nat) (gross_amount : Money)
    (description room_id task_id : String)
    (vat_rate vat_amount : Option Money)
    (payment_method vendor notes : String) (db : DB) : HOut :=
  match db.expenses.find? (fun e => e.id == expense_id) with
  | none => .ok (.redirect "/expenses") db
  | some e =>
    if e.project_id != user.active_project_id then .ok (.redirect "/expenses") db
    else
      let expenses' := updFirst (fun x => x.id == expense_id)
        (expenseUpdateUpd purchase_date gross_amount description room_id
          task_id vat_rate vat_amount payment_method vendor notes now)
        db.expenses
      tryCommit commitOk db { db with expenses := expenses' }
        "/expenses" "/expenses?err=save_failed"

/-- `expenses_delete` (lines 766-791): unlink same-project documents that
reference the expense, then delete the expense row. -/
def expenses_delete (commitOk : Bool) (now : Nat) (user : AuthUser)
    (expense_id : String) (db : DB) : HOut :=
  match db.expenses.find? (fun e => e.id == expense_id) with
  | none => .ok (.redirect "/expenses") db
  | some e =>
    if e.project_id != user.active_project_id then .ok (.redirect "/expenses") db
    else
      let db' := { db with
        documents := db.documents.map (fun d =>
          if d.project_id == user.active_project_id && d.expense_id == some e.id then
            { d with expense_id := none } else d),
        expenses := rmFirst (fun x => x.id == e.id) db.expenses }
      tryCommit commitOk db db' "/expenses" "/expenses?err=delete_failed"

/-! ### Task handlers (src/app/main.py lines 799-978). -/

/-- The four recognised kanban statuses. -/
def taskStatuses : List String := ["todo", "doing", "blocked", "done"]

/-- `tasks_create` (lines 837-873): build the task with status "todo"
regardless of input (no blank-title check is performed here), insert, and
commit inside try/except with the "save_failed" rollback redirect. -/
def tasks_create (commitOk : Bool) (now : Nat) (newId : String)
    (user : AuthUser) (title description room_id : String)
    (due_date : Option Nat) (priority : Int) (db : DB) : HOut :=
  let t : TaskR := {
    id := newId,
    project_id := user.active_project_id,
    room_id := optOfStr room_id,
    title := _clean_str title,
    description := optOfStr description,
    due_date := due_date,
    priority := priority,
    status := "todo",
    created_at := now,
    updated_at := now,
    completed_at := none }
  tryCommit commitOk db { db with tasks := db.tasks ++ [t] }
    "/tasks" "/tasks?err=save_failed"

/-- The completed-at transition of `tasks_move` lines 894-897 and
`tasks_update` lines 937-940: entering "done" stamps the clock only when the
timestamp is absent; any other status clears it. -/
def completedAtAfter (st : String) (old : Option Nat) (now : Nat) : Option Nat :=
  let afterDone := if st == "done" && old.isNone then some now else old
  if st != "done" then none else afterDone

/-- The row mutation `tasks_move` lines 893-899 perform on the fetched
task. -/
def taskMoveUpd (st : String) (now : Nat) (x : TaskR) : TaskR :=
  { x with status := st,
           completed_at := completedAtAfter st x.completed_at now,
           updated_at := now }

/-- `tasks_move` (lines 876-902).  Its `db.commit()` has no try/except: a
commit failure escapes. -/
def tasks_move (commitOk : Bool) (now : Nat) (user : AuthUser)
    (task_id status : String) (db : DB) : HOut :=
  match db.tasks.find? (fun t => t.id == task_id) with
  | none => .ok (.redirect "/tasks") db
  | some t =>
    if t.project_id != user.active_project_id then .ok (.redirect "/tasks") db
    else
      let st := pyLower (_clean_str status)
      if !(strMem st taskStatuses) then .ok (.redirect "/tasks") db
      else
        let tasks' := updFirst (fun x => x.id == task_id)
          (taskMoveUpd st now) db.tasks
        bareCommit commitOk { db with tasks := tasks' } "/tasks"

/-- The row mutation `tasks_update` lines 928-942 perform on the fetched
task: assign the scalar fields, then apply the status and completed-at
transition only for a recognised status, then refresh updated-at. -/
def taskUpdateUpd (title_c description room_id : String)
    (due_date : Option Nat) (priority : Int) (st : String) (now : Nat)
    (x : TaskR) : TaskR :=
  let x := { x with title := title_c,
                    description := optOfStr description,
                    room_id := optOfStr room_id,
                    due_date := due_date,
                    priority := priority }
  let x := if strMem st taskStatuses then
      { x with status := st,
               completed_at := completedAtAfter st x.completed_at now }
    else x
  { x with updated_at := now }

/-- `tasks_update` (lines 904-951).  A recognised status value applies the
same completed-at semantics as `tasks_move`; a blank or unrecognised status
leaves status and completed-at untouched. -/
def tasks_update (commitOk : Bool) (now : Nat) (user : AuthUser)
    (task_id title description room_id : String) (due_date : Option Nat)
    (priority : Int) (status : String) (db : DB) : HOut :=
  match db.tasks.find? (fun t => t.id == task_id) with
  | none => .ok (.redirect "/tasks") db
  | some t =>
    if t.project_id != user.active_project_id then .ok (.redirect "/tasks") db
    else
      let title_c := _clean_str title
      if title_c == "" then .ok (.redirect "/tasks?err=missing_title") db
      else
        let st := pyLower (_clean_str status)
        let tasks' := updFirst (fun x => x.id == task_id)
          (taskUpdateUpd title_c description room_id due_date priority st now)
          db.tasks
        tryCommit commitOk db { db with tasks := tasks' }
          "/tasks" "/tasks?err=save_failed"

/-- `tasks_delete` (lines 954-978): remove every document-task link of the
task, unlink same-project expenses that reference it, delete the task
row. -/
def tasks_delete (commitOk : Bool) (now : Nat) (user : AuthUser)
    (task_id : String) (db : DB) : HOut :=
  match db.tasks.find? (fun t => t.id == task_id) with
  | none => .ok (.redirect "/tasks") db
  | some t =>
    if t.project_id != user.active_project_id then .ok (.redirect "/tasks") db
    else
      let db' := { db with
        document_tasks := db.document_tasks.filter (fun l => !(l.task_id == t.id)),
        expenses := db.expenses.map (fun e =>
          if e.project_id == user.active_project_id && e.task_id == some t.id then
            { e with task_id := none } else e),
        tasks := rmFirst (fun x => x.id == t.id) db.tasks }
      tryCommit commitOk db db' "/tasks" "/tasks?err=delete_failed"

/-- The kanban bucketing of `tasks_board` (lines 818-820).  The Python
`cols` dict maps the four status keys to four distinct lists, and
`cols.setdefault(t.status, cols["todo"])` inserts any unknown status as a
new key aliased to the "todo" list object; the alias map is carried
explicitly. -/
inductive ColId where
  | todo
  | doing
  | blocked
  | done
deriving DecidableEq

/-- The four columns of the board. -/
structure Cols where
  todo : List TaskR
  doing : List TaskR
  blocked : List TaskR
  done : List TaskR
deriving DecidableEq

/-- Append a task to the column a key aliases. -/
def colsAppend (cols : Cols) (cid : ColId) (t : TaskR) : Cols :=
  match cid with
  | .todo => { cols with todo := cols.todo ++ [t] }
  | .doing => { cols with doing := cols.doing ++ [t] }
  | .blocked => { cols with blocked := cols.blocked ++ [t] }
  | .done => { cols with done := cols.done ++ [t] }

/-- The dict state of the loop: which list object each key aliases, plus the
four lists themselves. -/
structure ColsState where
  keys : List (String × ColId)
  cols : Cols
deriving DecidableEq

/-- Which list object the dict currently associates with a key. -/
def colLookup (st : ColsState) (k : String) : Option ColId :=
  (st.keys.find? (fun kv => kv.1 == k)).map (fun kv => kv.2)

/-- One iteration of the loop body
`cols.setdefault(t.status, cols["todo"]).append(t)`: a known key appends to
its aliased list; an unknown key is inserted aliasing the "todo" list object
and the task appended there. -/
def boardStep (st : ColsState) (t : TaskR) : ColsState :=
  match colLookup st t.status with
  | some cid => { st with cols := colsAppend st.cols cid t }
  | none =>
      { keys := st.keys ++ [(t.status, .todo)],
        cols := colsAppend st.cols .todo t }

/-- The initial dict `{"todo": [], "doing": [], "blocked": [], "done": []}`. -/
def boardInit : ColsState :=
  { keys := [("todo", .todo), ("doing", .doing), ("blocked", .blocked),
             ("done", .done)],
    cols := { todo := [], doing := [], blocked := [], done := [] } }

/-- The board bucketing over the project's task rows. -/
def tasks_board_cols (tasks : List TaskR) : Cols :=
  (tasks.foldl boardStep boardInit).cols

/-! ### Project creation (src/app/main.py lines 409-435).  Only the
`get_current_user` guard precedes the body, so the user may have no active
project yet; both commits are bare. -/

/-- `projects_create` (lines 409-435): insert the project, commit, make it
the creator's active project, commit again.  Neither commit is guarded. -/
def projects_create (commitOk : Bool) (now : Nat) (newId user_id : String)
    (name description : String) (db : DB) : HOut :=
  let p : ProjectR := {
    id := newId,
    name := _clean_str name,
    description := optOfStr description,
    currency := "GBP",
    is_archived := false,
    created_at := now,
    updated_at := now }
  if commitOk then
    let db1 := { db with projects := db.projects ++ [p] }
    let users' := updFirst (fun u => u.id == user_id)
      (fun u => { u with active_project_id := some newId }) db1.users
    .ok (.redirect "/dashboard") { db1 with users := users' }
  else .raised .commitFailed

/-! ### Document handlers (src/app/main.py lines 1029-1158). -/

/-- The uploaded file as the handler sees it after `await file.read()`. -/
structure UploadFileM where
  filename : Option String
  content_type : Option String
  content : String
deriving DecidableEq

/-- Outcome of the upload handler, which also touches the object store. -/
inductive UploadOut where
  | ok (resp : Response) (db : DB) (store : Store)
  | raised (e : HandlerError)
deriving DecidableEq

/-- `documents_upload` (lines 1029-1091): normalise the metadata, upload the
bytes under the constructed key before any row is committed, insert the
document row, commit (bare), then link each requested task that exists in
the active project and commit again (bare).  `ym` is the formatted
year-month of `now`; `keyUuid` and `docId` are the two fresh `uuid4()`
values. -/
def documents_upload (commitOk : Bool) (now : Nat) (ym keyUuid docId : String)
    (user : AuthUser) (file : UploadFileM)
    (doc_type title notes tags room_id expense_id : String)
    (task_ids : List String) (photo_group : String)
    (s : Settings) (store : Store) (db : DB) : UploadOut :=
  let room_id' := optOfStr room_id
  let expense_id' := optOfStr expense_id
  let task_ids_list := _parse_task_ids task_ids
  let doc_type_n := _norm_doc_type doc_type
  let photo_group_n := _norm_photo_group doc_type_n photo_group
  let tags_n := _norm_tags tags
  let safe_title := let c := _clean_str title
                    if c == "" then strOr file.filename "document" else c
  let original := String.mk ((strOr file.filename "upload").data.map
    (fun c => if c == ' ' then '_' else c))
  let key := user.active_project_id ++ "/" ++ ym ++ "/" ++ keyUuid ++ "_" ++ original
  let store' := match upload_bytes s key file.content file.content_type store with
    | .ok st => st
    | .fail _ => store
  let d : DocumentR := {
    id := docId,
    project_id := user.active_project_id,
    room_id := room_id',
    expense_id := expense_id',
    doc_type := doc_type_n,
    photo_group := photo_group_n,
    title := some safe_title,
    original_filename := file.filename,
    content_type := file.content_type,
    size_bytes := some file.content.length,
    s3_key := key,
    notes := optOfStr notes,
    tags := tags_n,
    created_at := now,
    updated_at := now }
  if commitOk then
    let db1 := { db with documents := db.documents ++ [d] }
    let links := (task_ids_list.filter (fun tid =>
      match db1.tasks.find? (fun t => t.id == tid) with
      | some t => t.project_id == user.active_project_id
      | none => false)).map (fun tid =>
        ({ document_id := d.id, task_id := tid, created_at := now } : DocumentTaskR))
    let db2 := { db1 with document_tasks := db1.document_tasks ++ links }
    .ok (.redirect "/documents") db2 store'
  else .raised .commitFailed

/-- `documents_update` (lines 1094-1145): renormalise the metadata and
reconcile the task links by set difference; the single commit is bare.  The
iteration order of the Python sets is modelled by first-seen order of the
submitted list. -/
def documents_update (commitOk : Bool) (now : Nat) (user : AuthUser)
    (doc_id : String) (doc_type photo_group title notes tags room_id expense_id :
    String) (task_ids : List String) (db : DB) : HOut :=
  match db.documents.find? (fun d => d.id == doc_id) with
  | none => .ok (.redirect "/documents") db
  | some d =>
    if d.project_id != user.active_project_id then .ok (.redirect "/documents") db
    else
      let doc_type_n := _norm_doc_type doc_type
      let photo_group_n := _norm_photo_group doc_type_n photo_group
      let documents' := updFirst (fun x => x.id == doc_id)
        (fun x => { x with
          doc_type := doc_type_n,
          photo_group := photo_group_n,
          title := some (let c := _clean_str title
                         if c == "" then strOr x.original_filename "document" else c),
          notes := optOfStr notes,
          tags := _norm_tags tags,
          room_id := optOfStr room_id,
          expense_id := optOfStr expense_id,
          updated_at := now }) db.documents
      let new_task_ids := _parse_task_ids task_ids
      let existing_ids := (db.document_tasks.filter
        (fun l => l.document_id == d.id)).map (·.task_id)
      let document_tasks' := db.document_tasks.filter (fun l =>
        !(l.document_id == d.id && !(strMem l.task_id new_task_ids)))
      let to_add := new_task_ids.filter (fun tid => !(strMem tid existing_ids))
      let links := (to_add.filter (fun tid =>
        match db.tasks.find? (fun t => t.id == tid) with
        | some t => t.project_id == user.active_project_id
        | none => false)).map (fun tid =>
          ({ document_id := d.id, task_id := tid, created_at := now } : DocumentTaskR))
      let db' := { db with documents := documents',
                           document_tasks := document_tasks' ++ links }
      bareCommit commitOk db' "/documents"

/-- `documents_delete` (lines 1148-1158): delete the metadata row (the join
rows follow through the `ON DELETE CASCADE` of the `document_tasks` DDL in
`ensure_schema`); the commit is bare, and the stored object is never
removed. -/
def documents_delete (commitOk : Bool) (now : Nat) (user : AuthUser)
    (doc_id : String) (db : DB) : HOut :=
  match db.documents.find? (fun d => d.id == doc_id) with
  | none => .ok (.redirect "/documents") db
  | some d =>
    if d.project_id != user.active_project_id then .ok (.redirect "/documents") db
    else
      let db' := { db with
        documents := rmFirst (fun x => x.id == d.id) db.documents,
        document_tasks := db.document_tasks.filter
          (fun l => !(l.document_id == d.id)) }
      bareCommit commitOk db' "/documents"

/-! ## Helper lemmas. -/

theorem find?_updFirst {α : Type} (p : α → Bool) (f : α → α) (l : List α)
    (hf : ∀ x, p x = true → p (f x) = true) :
    (updFirst p f l).find? p = (l.find? p).map f := by
  induction l with
  | nil => rfl
  | cons x xs ih =>
    by_cases h : p x = true
    · simp [updFirst, h, hf x h]
    · simp [updFirst, h, ih]

theorem strMem_iff (x : String) (l : List String) :
    strMem x l = true ↔ x ∈ l := by
  induction l with
  | nil => simp [strMem]
  | cons y ys ih => simp [strMem, ih, List.mem_cons]

theorem taskUpdateUpd_id (a b c : String) (dd : Option Nat) (pr : Int)
    (st : String) (now : Nat) (x : TaskR) :
    (taskUpdateUpd a b c dd pr st now x).id = x.id := by
  unfold taskUpdateUpd
  by_cases h : strMem st taskStatuses = true <;> simp [h]

/-! ## Concrete fixtures used by counterexamples and witnesses. -/

/-- An environment that configures object storage credentials and nothing
else. -/
def cfgEnv : Env := fun k =>
  if k == "MINIO_ACCESS_KEY" then some "minio-access"
  else if k == "MINIO_SECRET_KEY" then some "minio-secret"
  else none

/-- An empty object store. -/
def emptyStore : Store := { buckets := [], objects := [] }

/-! ## C10 — the delete-object primitive can never delete. -/

/-- C10: the low-level `delete_object` primitive can never delete an object.
When object storage is unconfigured it returns without touching the store;
when it is configured it raises the `NameError` from the undefined
module-level name `get_s3` before any store call; consequently no successful
return ever changes the store. -/
theorem delete_object_never_deletes (s : Settings) (key : String) (st : Store) :
    (s3_enabled s = true → delete_object s key st = .fail .nameError) ∧
    (s3_enabled s = false → delete_object s key st = .ok st) ∧
    (∀ st', delete_object s key st = .ok st' → st' = st) := by
  unfold delete_object
  cases h : s3_enabled s <;> simp

/-- Witness for C10 at concrete inputs: with credentials configured the call
raises the name error; with nothing configured it is a no-op. -/
theorem delete_object_never_deletes_witness :
    delete_object (settingsOf cfgEnv) "proj/2024-03/file" emptyStore =
      .fail .nameError ∧
    delete_object (settingsOf noEnv) "proj/2024-03/file" emptyStore =
      .ok emptyStore :=
  ⟨(delete_object_never_deletes (settingsOf cfgEnv) "proj/2024-03/file"
      emptyStore).1 (by decide),
   (delete_object_never_deletes (settingsOf noEnv) "proj/2024-03/file"
      emptyStore).2.1 (by decide)⟩

/-! ## C9 — storage behaviour when the configuration is incomplete. -/

/-- C9: with any of endpoint, access key, secret key or bucket name empty,
presigned-URL generation fails with the configuration error, while
upload-bytes and ensure-bucket return as no-ops without raising. -/
theorem storage_unconfigured_behavior (s : Settings) (key : String) (n : Nat)
    (data : String) (ct : Option String) (st : Store)
    (h : s.minio_endpoint = "" ∨ s.minio_access_key = "" ∨
         s.minio_secret_key = "" ∨ s.minio_bucket = "") :
    presigned_get_url s key n = .fail .notConfigured ∧
    upload_bytes s key data ct st = .ok st ∧
    ensure_bucket_exists s st = .ok st := by
  have he : s3_enabled s = false := by
    unfold s3_enabled
    rcases h with h | h | h | h <;> simp [h]
  unfold presigned_get_url upload_bytes ensure_bucket_exists
  simp [he]

/-- Witness for C9 at the default environment, whose access key is the
empty string. -/
theorem storage_unconfigured_behavior_witness :
    presigned_get_url (settingsOf noEnv) "k" 3600 = .fail .notConfigured ∧
    upload_bytes (settingsOf noEnv) "k" "bytes" none emptyStore =
      .ok emptyStore ∧
    ensure_bucket_exists (settingsOf noEnv) emptyStore = .ok emptyStore :=
  storage_unconfigured_behavior (settingsOf noEnv) "k" 3600 "bytes" none
    emptyStore (Or.inr (Or.inl rfl))

/-! ## C1 — first-boot bootstrap identity. -/

/-- C1 counterexample: on a fresh database with no ADMIN_* variables set,
the bootstrap routine creates "admin@local"/"admin"/"Admin" — its own
hard-coded fallbacks — even though the Configuration defaults for the same
variables are "jon@local"/"vampire12"/"Jon"; the created identity is not the
Configuration default identity. -/
theorem seed_ignores_configuration_defaults :
    ensure_admin_user noEnv [] =
      [{ email := "admin@local", password_hash := hash_password "admin",
         display_name := "Admin" }] ∧
    (settingsOf noEnv).admin_email = "jon@local" ∧
    (settingsOf noEnv).admin_password = "vampire12" ∧
    (settingsOf noEnv).admin_name = "Jon" ∧
    (ensure_admin_user noEnv []).map SeedUser.email = ["admin@local"] ∧
    "admin@local" ≠ "jon@local" :=
  ⟨rfl, rfl, rfl, rfl, rfl, by decide⟩

/-- C1 amended: the admin bootstrap routine reads the ADMIN_* environment
variables directly with its own hard-coded fallbacks and never consults the
Configuration object; run on a fresh database with none of the ADMIN_*
variables set, it creates the user "admin@local" with password "admin" and
name "Admin". -/
theorem first_boot_creates_admin_local (env : Env)
    (he : env "ADMIN_EMAIL" = none) (hp : env "ADMIN_PASSWORD" = none)
    (hn : env "ADMIN_NAME" = none) :
    ensure_admin_user env [] =
      [{ email := "admin@local", password_hash := hash_password "admin",
         display_name := "Admin" }] := by
  simp only [ensure_admin_user, desired_email, desired_password, desired_name,
    he, hp, hn]
  rfl

/-- Witness for C1's amended theorem at the all-unset environment. -/
theorem first_boot_creates_admin_local_witness :
    noEnv "ADMIN_EMAIL" = none ∧
    ensure_admin_user noEnv [] =
      [{ email := "admin@local", password_hash := hash_password "admin",
         display_name := "Admin" }] :=
  ⟨rfl, first_boot_creates_admin_local noEnv rfl rfl rfl⟩

/-! ## C5 — completed-at semantics of task moves and updates. -/

/-- The transition written by `tasks_move`/`tasks_update` collapses to:
entering "done" keeps an existing stamp and otherwise stamps `now`; any
other status clears the stamp. -/
theorem completedAtAfter_eq (st : String) (old : Option Nat) (now : Nat) :
    completedAtAfter st old now =
      if st = "done" then some (old.getD now) else none := by
  unfold completedAtAfter
  by_cases h : st = "done" <;> cases old <;> simp [h]

/-- C5: for every task move or update supplying a recognised status, the
stored task ends with that status, and its completed-at equals the existing
stamp when moving into "done" with a stamp already present, the current time
when moving into "done" without one, and absent for any other status. -/
theorem task_completed_at_transitions :
    (∀ (now : Nat) (user : AuthUser) (tid status : String) (db : DB) (t : TaskR),
      db.tasks.find? (fun x => x.id == tid) = some t →
      t.project_id = user.active_project_id →
      strMem (pyLower (_clean_str status)) taskStatuses = true →
      ∃ db' t',
        tasks_move true now user tid status db = .ok (.redirect "/tasks") db' ∧
        db'.tasks.find? (fun x => x.id == tid) = some t' ∧
        t'.status = pyLower (_clean_str status) ∧
        t'.completed_at = (if pyLower (_clean_str status) = "done" then
          some (t.completed_at.getD now) else none)) ∧
    (∀ (now : Nat) (user : AuthUser)
      (tid title description room_id : String) (due_date : Option Nat)
      (priority : Int) (status : String) (db : DB) (t : TaskR),
      db.tasks.find? (fun x => x.id == tid) = some t →
      t.project_id = user.active_project_id →
      _clean_str title ≠ "" →
      strMem (pyLower (_clean_str status)) taskStatuses = true →
      ∃ db' t',
        tasks_update true now user tid title description room_id due_date
          priority status db = .ok (.redirect "/tasks") db' ∧
        db'.tasks.find? (fun x => x.id == tid) = some t' ∧
        t'.status = pyLower (_clean_str status) ∧
        t'.completed_at = (if pyLower (_clean_str status) = "done" then
          some (t.completed_at.getD now) else none)) := by
  constructor
  · intro now user tid status db t hfind hproj hst
    have hbne : (t.project_id != user.active_project_id) = false := by
      rw [hproj]; exact bne_self_eq_false _
    simp only [tasks_move, hfind, hbne, Bool.false_eq_true, ite_false, hst,
      Bool.not_true, bareCommit, ite_true]
    refine ⟨_, taskMoveUpd (pyLower (_clean_str status)) now t, rfl, ?_, rfl,
      completedAtAfter_eq _ _ _⟩
    show (updFirst (fun x => x.id == tid)
      (taskMoveUpd (pyLower (_clean_str status)) now) db.tasks).find?
      (fun x => x.id == tid) = _
    rw [find?_updFirst (fun x => x.id == tid)
      (taskMoveUpd (pyLower (_clean_str status)) now) db.tasks
      (fun x hx => hx), hfind]
    rfl
  · intro now user tid title description room_id due_date priority status db t
      hfind hproj htitle hst
    have hbne : (t.project_id != user.active_project_id) = false := by
      rw [hproj]; exact bne_self_eq_false _
    have htitle' : (_clean_str title == "") = false := by
      simp [htitle]
    simp only [tasks_update, hfind, hbne, Bool.false_eq_true, ite_false,
      htitle', hst, ite_true, tryCommit]
    refine ⟨_, taskUpdateUpd (_clean_str title) description room_id due_date
      priority (pyLower (_clean_str status)) now t, rfl, ?_, ?_, ?_⟩
    · show (updFirst (fun x => x.id == tid)
        (taskUpdateUpd (_clean_str title) description room_id due_date
          priority (pyLower (_clean_str status)) now) db.tasks).find?
        (fun x => x.id == tid) = _
      rw [find?_updFirst (fun x => x.id == tid)
        (taskUpdateUpd (_clean_str title) description room_id due_date
          priority (pyLower (_clean_str status)) now) db.tasks
        (fun x hx => by simpa [taskUpdateUpd_id] using hx), hfind]
      rfl
    · simp only [taskUpdateUpd, hst, ite_true]
    · simp only [taskUpdateUpd, hst, ite_true]
      exact completedAtAfter_eq _ _ _

/-- A task fixture: a "todo" task in project "p1" with no completion
stamp. -/
def wTask : TaskR :=
  { id := "t1", project_id := "p1", room_id := none, title := "Paint hallway",
    description := none, due_date := none, priority := 3, status := "todo",
    created_at := 0, updated_at := 0, completed_at := none }

/-- A user fixture whose active project is "p1". -/
def wUser : AuthUser := { id := "u1", active_project_id := "p1" }

/-- A database fixture holding only the task fixture. -/
def wDB : DB :=
  { users := [], projects := [], rooms := [], tasks := [wTask],
    expenses := [], documents := [], document_tasks := [] }

/-- Witness for C5: moving the fixture task to "done" at time 5. -/
theorem task_completed_at_transitions_witness :
    wDB.tasks.find? (fun x => x.id == "t1") = some wTask ∧
    (∃ db' t',
      tasks_move true 5 wUser "t1" "done" wDB = .ok (.redirect "/tasks") db' ∧
      db'.tasks.find? (fun x => x.id == "t1") = some t' ∧
      t'.status = pyLower (_clean_str "done") ∧
      t'.completed_at = (if pyLower (_clean_str "done") = "done" then
        some (wTask.completed_at.getD 5) else none)) :=
  ⟨rfl, task_completed_at_transitions.1 5 wUser "t1" "done" wDB wTask rfl rfl
    (by decide)⟩

/-! ## C8 — expense net-amount derivation. -/

/-- C8: every expense create or update stores net = gross − VAT (exact
rational subtraction, the model of `Decimal`) when a VAT amount is supplied,
and an absent net when it is not. -/
theorem expense_net_amount_derivation :
    (∀ (now : Nat) (newId : String) (user : AuthUser) (pd : Nat)
       (gross : Money) (description room_id task_id : String)
       (vr va : Option Money) (pm vendor notes : String) (db : DB),
       ∃ e : ExpenseR,
         expenses_create true now newId user pd gross description room_id
           task_id vr va pm vendor notes db =
           .ok (.redirect "/expenses") { db with expenses := db.expenses ++ [e] } ∧
         e.gross_amount = gross ∧
         e.net_amount = va.map (fun v => gross - v)) ∧
    (∀ (now : Nat) (user : AuthUser) (eid : String) (pd : Nat) (gross : Money)
       (description room_id task_id : String) (vr va : Option Money)
       (pm vendor notes : String) (db : DB) (e : ExpenseR),
       db.expenses.find? (fun x => x.id == eid) = some e →
       e.project_id = user.active_project_id →
       ∃ db' e',
         expenses_update true now user eid pd gross description room_id task_id
           vr va pm vendor notes db = .ok (.redirect "/expenses") db' ∧
         db'.expenses.find? (fun x => x.id == eid) = some e' ∧
         e'.gross_amount = gross ∧
         e'.net_amount = va.map (fun v => gross - v)) := by
  constructor
  · intro now newId user pd gross description room_id task_id vr va pm vendor
      notes db
    simp only [expenses_create, tryCommit, ite_true]
    refine ⟨_, rfl, rfl, ?_⟩
    cases va <;> rfl
  · intro now user eid pd gross description room_id task_id vr va pm vendor
      notes db e hfind hproj
    have hbne : (e.project_id != user.active_project_id) = false := by
      rw [hproj]; exact bne_self_eq_false _
    simp only [expenses_update, hfind, hbne, Bool.false_eq_true, ite_false,
      tryCommit, ite_true]
    refine ⟨_, expenseUpdateUpd pd gross description room_id task_id vr va pm
      vendor notes now e, rfl, ?_, rfl, ?_⟩
    · show (updFirst (fun x => x.id == eid)
        (expenseUpdateUpd pd gross description room_id task_id vr va pm
          vendor notes now) db.expenses).find? (fun x => x.id == eid) = _
      rw [find?_updFirst (fun x => x.id == eid)
        (expenseUpdateUpd pd gross description room_id task_id vr va pm
          vendor notes now) db.expenses (fun x hx => hx), hfind]
      rfl
    · cases va <;> rfl

/-- Witness for C8: gross 120.00 with VAT 20.00 yields net 100.00. -/
theorem expense_net_amount_derivation_witness :
    ∃ e : ExpenseR,
      expenses_create true 0 "e1" wUser 0 120 "materials" "" "" none (some 20)
        "" "" "" wDB =
        .ok (.redirect "/expenses") { wDB with expenses := wDB.expenses ++ [e] } ∧
      e.net_amount = some 100 := by
  obtain ⟨e, h1, _, h3⟩ :=
    expense_net_amount_derivation.1 0 "e1" wUser 0 120 "materials" "" ""
      none (some 20) "" "" "" wDB
  refine ⟨e, h1, ?_⟩
  rw [h3]
  norm_num

/-! ## C3 — cross-project isolation. -/

/-- C3: for every authenticated user and every Room/Task/Expense/Document
row whose project id differs from the user's active project (which also
covers a nonexistent id vacuously), the update and delete handlers answer
exactly the outcome of a nonexistent id: a redirect to the entity's listing
page with the database unchanged. -/
theorem cross_project_isolation :
    (∀ (commitOk : Bool) (now : Nat) (user : AuthUser)
       (rid name floor status : String) (db : DB),
      (∀ r ∈ db.rooms, r.id = rid → r.project_id ≠ user.active_project_id) →
      rooms_update commitOk now user rid name floor status db =
        .ok (.redirect "/rooms") db ∧
      rooms_delete commitOk now user rid db = .ok (.redirect "/rooms") db) ∧
    (∀ (commitOk : Bool) (now : Nat) (user : AuthUser)
       (tid title description room_id : String) (due_date : Option Nat)
       (priority : Int) (status : String) (db : DB),
      (∀ t ∈ db.tasks, t.id = tid → t.project_id ≠ user.active_project_id) →
      tasks_update commitOk now user tid title description room_id due_date
        priority status db = .ok (.redirect "/tasks") db ∧
      tasks_delete commitOk now user tid db = .ok (.redirect "/tasks") db) ∧
    (∀ (commitOk : Bool) (now : Nat) (user : AuthUser) (eid : String)
       (pd : Nat) (gross : Money) (description room_id task_id : String)
       (vr va : Option Money) (pm vendor notes : String) (db : DB),
      (∀ e ∈ db.expenses, e.id = eid → e.project_id ≠ user.active_project_id) →
      expenses_update commitOk now user eid pd gross description room_id
        task_id vr va pm vendor notes db = .ok (.redirect "/expenses") db ∧
      expenses_delete commitOk now user eid db = .ok (.redirect "/expenses") db) ∧
    (∀ (commitOk : Bool) (now : Nat) (user : AuthUser)
       (did doc_type photo_group title notes tags room_id expense_id : String)
       (task_ids : List String) (db : DB),
      (∀ d ∈ db.documents, d.id = did → d.project_id ≠ user.active_project_id) →
      documents_update commitOk now user did doc_type photo_group title notes
        tags room_id expense_id task_ids db = .ok (.redirect "/documents") db ∧
      documents_delete commitOk now user did db =
        .ok (.redirect "/documents") db) := by
  refine ⟨?_, ?_, ?_, ?_⟩
  · intro commitOk now user rid name floor status db h
    constructor
    · cases hf : db.rooms.find? (fun r => r.id == rid) with
      | none => simp [rooms_update, hf]
      | some r =>
        have hid : r.id = rid := by simpa using List.find?_some hf
        have hne : (r.project_id != user.active_project_id) = true := by
          simp [h r (List.mem_of_find?_eq_some hf) hid]
        simp [rooms_update, hf, hne]
    · cases hf : db.rooms.find? (fun r => r.id == rid) with
      | none => simp [rooms_delete, hf]
      | some r =>
        have hid : r.id = rid := by simpa using List.find?_some hf
        have hne : (r.project_id != user.active_project_id) = true := by
          simp [h r (List.mem_of_find?_eq_some hf) hid]
        simp [rooms_delete, hf, hne]
  · intro commitOk now user tid title description room_id due_date priority
      status db h
    constructor
    · cases hf : db.tasks.find? (fun t => t.id == tid) with
      | none => simp [tasks_update, hf]
      | some t =>
        have hid : t.id = tid := by simpa using List.find?_some hf
        have hne : (t.project_id != user.active_project_id) = true := by
          simp [h t (List.mem_of_find?_eq_some hf) hid]
        simp [tasks_update, hf, hne]
    · cases hf : db.tasks.find? (fun t => t.id == tid) with
      | none => simp [tasks_delete, hf]
      | some t =>
        have hid : t.id = tid := by simpa using List.find?_some hf
        have hne : (t.project_id != user.active_project_id) = true := by
          simp [h t (List.mem_of_find?_eq_some hf) hid]
        simp [tasks_delete, hf, hne]
  · intro commitOk now user eid pd gross description room_id task_id vr va pm
      vendor notes db h
    constructor
    · cases hf : db.expenses.find? (fun e => e.id == eid) with
      | none => simp [expenses_update, hf]
      | some e =>
        have hid : e.id = eid := by simpa using List.find?_some hf
        have hne : (e.project_id != user.active_project_id) = true := by
          simp [h e (List.mem_of_find?_eq_some hf) hid]
        simp [expenses_update, hf, hne]
    · cases hf : db.expenses.find? (fun e => e.id == eid) with
      | none => simp [expenses_delete, hf]
      | some e =>
        have hid : e.id = eid := by simpa using List.find?_some hf
        have hne : (e.project_id != user.active_project_id) = true := by
          simp [h e (List.mem_of_find?_eq_some hf) hid]
        simp [expenses_delete, hf, hne]
  · intro commitOk now user did doc_type photo_group title notes tags room_id
      expense_id task_ids db h
    constructor
    · cases hf : db.documents.find? (fun d => d.id == did) with
      | none => simp [documents_update, hf]
      | some d =>
        have hid : d.id = did := by simpa using List.find?_some hf
        have hne : (d.project_id != user.active_project_id) = true := by
          simp [h d (List.mem_of_find?_eq_some hf) hid]
        simp [documents_update, hf, hne]
    · cases hf : db.documents.find? (fun d => d.id == did) with
      | none => simp [documents_delete, hf]
      | some d =>
        have hid : d.id = did := by simpa using List.find?_some hf
        have hne : (d.project_id != user.active_project_id) = true := by
          simp [h d (List.mem_of_find?_eq_some hf) hid]
        simp [documents_delete, hf, hne]

/-- A room, task, expense and document that all live in project "p2",
foreign to the fixture user's active project "p1". -/
def xRoom : RoomR :=
  { id := "r2", project_id := "p2", name := "Kitchen", floor := none,
    status := none, created_at := 0, updated_at := 0 }

/-- A task in the foreign project "p2". -/
def xTask : TaskR := { wTask with id := "t2", project_id := "p2" }

/-- An expense in the foreign project "p2". -/
def xExp : ExpenseR :=
  { id := "e2", project_id := "p2", room_id := none, task_id := none,
    purchase_date := 0, gross_amount := 50, description := "paint",
    vat_rate := none, vat_amount := none, net_amount := none,
    payment_method := none, vendor := none, notes := none, is_refund := false,
    created_at := 0, updated_at := 0 }

/-- A document in the foreign project "p2". -/
def xDoc : DocumentR :=
  { id := "d2", project_id := "p2", room_id := none, expense_id := none,
    doc_type := "receipt", photo_group := none, title := none, notes := none,
    tags := none, original_filename := none, content_type := none,
    size_bytes := none, s3_key := "k", created_at := 0, updated_at := 0 }

/-- A database whose only rows belong to the foreign project "p2". -/
def xDB : DB :=
  { users := [], projects := [], rooms := [xRoom], tasks := [xTask],
    expenses := [xExp], documents := [xDoc], document_tasks := [] }

/-- Witness for C3: the user with active project "p1" updating or deleting
each foreign "p2" entity gets the bare listing redirect with the database
untouched. -/
theorem cross_project_isolation_witness :
    (rooms_update true 0 wUser "r2" "Kitchen" "" "" xDB =
       .ok (.redirect "/rooms") xDB ∧
     rooms_delete true 0 wUser "r2" xDB = .ok (.redirect "/rooms") xDB) ∧
    (tasks_update true 0 wUser "t2" "T" "" "" none 3 "" xDB =
       .ok (.redirect "/tasks") xDB ∧
     tasks_delete true 0 wUser "t2" xDB = .ok (.redirect "/tasks") xDB) ∧
    (expenses_update true 0 wUser "e2" 0 50 "d" "" "" none none "" "" "" xDB =
       .ok (.redirect "/expenses") xDB ∧
     expenses_delete true 0 wUser "e2" xDB = .ok (.redirect "/expenses") xDB) ∧
    (documents_update true 0 wUser "d2" "receipt" "" "" "" "" "" "" [] xDB =
       .ok (.redirect "/documents") xDB ∧
     documents_delete true 0 wUser "d2" xDB = .ok (.redirect "/documents") xDB) :=
  ⟨cross_project_isolation.1 true 0 wUser "r2" "Kitchen" "" "" xDB (by decide),
   cross_project_isolation.2.1 true 0 wUser "t2" "T" "" "" none 3 "" xDB
     (by decide),
   cross_project_isolation.2.2.1 true 0 wUser "e2" 0 50 "d" "" "" none none
     "" "" "" xDB (by decide),
   cross_project_isolation.2.2.2 true 0 wUser "d2" "receipt" "" "" "" "" ""
     "" [] xDB (by decide)⟩

/-! ## C4 — commit failure handling. -/

/-- C4 counterexample: on a commit failure, `tasks_move` on an owned task
and `projects_create` both let the exception escape instead of answering a
redirect with an error code; the claim that every state-changing handler
rolls back and redirects does not hold. -/
theorem unguarded_commit_failure_counterexample :
    tasks_move false 5 wUser "t1" "done" wDB = .raised .commitFailed ∧
    projects_create false 0 "p9" "u1" "Loft" "" wDB = .raised .commitFailed :=
  ⟨by decide, rfl⟩

/-- C4 amended: the rooms, expenses and tasks create/update/delete handlers
catch commit failures, roll back and redirect with an error code (for room
creation, "duplicate" when the failure is an IntegrityError matching the
unique-violation heuristic, "save_failed" otherwise); project creation,
task move and the document upload/update/delete handlers have no such
guard, so their commit failures propagate as uncaught exceptions. -/
theorem commit_failure_handling :
    (∀ (now : Nat) (newId : String) (user : AuthUser)
       (name floor status : String) (db : DB) (ex : ExcInfo),
      (_clean_str name == "") = false →
      db.rooms.any (fun x => x.project_id == user.active_project_id &&
        pyLower x.name == pyLower (_clean_str name)) = false →
      rooms_create (some ex) now newId user name floor status db =
        .ok (.redirect (if ex.integrity_error && _is_unique_violation ex.message
          then "/rooms?err=duplicate" else "/rooms?err=save_failed")) db) ∧
    (∀ (now : Nat) (user : AuthUser) (rid name floor status : String)
       (db : DB) (r : RoomR),
      db.rooms.find? (fun x => x.id == rid) = some r →
      r.project_id = user.active_project_id →
      (_clean_str name == "") = false →
      db.rooms.any (fun x => x.project_id == user.active_project_id &&
        pyLower x.name == pyLower (_clean_str name) && x.id != r.id) = false →
      rooms_update false now user rid name floor status db =
        .ok (.redirect "/rooms?err=save_failed") db) ∧
    (∀ (now : Nat) (user : AuthUser) (rid : String) (db : DB) (r : RoomR),
      db.rooms.find? (fun x => x.id == rid) = some r →
      r.project_id = user.active_project_id →
      rooms_delete false now user rid db =
        .ok (.redirect "/rooms?err=delete_failed") db) ∧
    (∀ (now : Nat) (newId : String) (user : AuthUser) (pd : Nat)
       (gross : Money) (description room_id task_id : String)
       (vr va : Option Money) (pm vendor notes : String) (db : DB),
      expenses_create false now newId user pd gross description room_id
        task_id vr va pm vendor notes db =
        .ok (.redirect "/expenses?err=save_failed") db) ∧
    (∀ (now : Nat) (user : AuthUser) (eid : String) (pd : Nat) (gross : Money)
       (description room_id task_id : String) (vr va : Option Money)
       (pm vendor notes : String) (db : DB) (e : ExpenseR),
      db.expenses.find? (fun x => x.id == eid) = some e →
      e.project_id = user.active_project_id →
      expenses_update false now user eid pd gross description room_id task_id
        vr va pm vendor notes db =
        .ok (.redirect "/expenses?err=save_failed") db) ∧
    (∀ (now : Nat) (user : AuthUser) (eid : String) (db : DB) (e : ExpenseR),
      db.expenses.find? (fun x => x.id == eid) = some e →
      e.project_id = user.active_project_id →
      expenses_delete false now user eid db =
        .ok (.redirect "/expenses?err=delete_failed") db) ∧
    (∀ (now : Nat) (newId : String) (user : AuthUser)
       (title description room_id : String) (due_date : Option Nat)
       (priority : Int) (db : DB),
      tasks_create false now newId user title description room_id due_date
        priority db = .ok (.redirect "/tasks?err=save_failed") db) ∧
    (∀ (now : Nat) (user : AuthUser) (tid title description room_id : String)
       (due_date : Option Nat) (priority : Int) (status : String) (db : DB)
       (t : TaskR),
      db.tasks.find? (fun x => x.id == tid) = some t →
      t.project_id = user.active_project_id →
      (_clean_str title == "") = false →
      tasks_update false now user tid title description room_id due_date
        priority status db = .ok (.redirect "/tasks?err=save_failed") db) ∧
    (∀ (now : Nat) (user : AuthUser) (tid : String) (db : DB) (t : TaskR),
      db.tasks.find? (fun x => x.id == tid) = some t →
      t.project_id = user.active_project_id →
      tasks_delete false now user tid db =
        .ok (.redirect "/tasks?err=delete_failed") db) ∧
    (∀ (now : Nat) (newId user_id name description : String) (db : DB),
      projects_create false now newId user_id name description db =
        .raised .commitFailed) ∧
    (∀ (now : Nat) (user : AuthUser) (tid status : String) (db : DB)
       (t : TaskR),
      db.tasks.find? (fun x => x.id == tid) = some t →
      t.project_id = user.active_project_id →
      strMem (pyLower (_clean_str status)) taskStatuses = true →
      tasks_move false now user tid status db = .raised .commitFailed) ∧
    (∀ (now : Nat) (ym keyUuid docId : String) (user : AuthUser)
       (file : UploadFileM)
       (doc_type title notes tags room_id expense_id : String)
       (task_ids : List String) (photo_group : String) (s : Settings)
       (store : Store) (db : DB),
      documents_upload false now ym keyUuid docId user file doc_type title
        notes tags room_id expense_id task_ids photo_group s store db =
        .raised .commitFailed) ∧
    (∀ (now : Nat) (user : AuthUser)
       (did doc_type photo_group title notes tags room_id expense_id : String)
       (task_ids : List String) (db : DB) (d : DocumentR),
      db.documents.find? (fun x => x.id == did) = some d →
      d.project_id = user.active_project_id →
      documents_update false now user did doc_type photo_group title notes
        tags room_id expense_id task_ids db = .raised .commitFailed) ∧
    (∀ (now : Nat) (user : AuthUser) (did : String) (db : DB) (d : DocumentR),
      db.documents.find? (fun x => x.id == did) = some d →
      d.project_id = user.active_project_id →
      documents_delete false now user did db = .raised .commitFailed) := by
  refine ⟨?_, ?_, ?_, ?_, ?_, ?_, ?_, ?_, ?_, ?_, ?_, ?_, ?_, ?_⟩
  · intro now newId user name floor status db ex hname hdup
    simp only [rooms_create, hname, hdup, Bool.false_eq_true, ite_false]
    cases hie : ex.integrity_error with
    | true => cases huv : _is_unique_violation ex.message <;> simp [hie, huv]
    | false => simp [hie]
  · intro now user rid name floor status db r hfind hproj hname hdup
    have hbne : (r.project_id != user.active_project_id) = false := by
      rw [hproj]; exact bne_self_eq_false _
    simp [rooms_update, hfind, hbne, hname, hdup, tryCommit]
  · intro now user rid db r hfind hproj
    have hbne : (r.project_id != user.active_project_id) = false := by
      rw [hproj]; exact bne_self_eq_false _
    simp [rooms_delete, hfind, hbne, tryCommit]
  · intro now newId user pd gross description room_id task_id vr va pm vendor
      notes db
    rfl
  · intro now user eid pd gross description room_id task_id vr va pm vendor
      notes db e hfind hproj
    have hbne : (e.project_id != user.active_project_id) = false := by
      rw [hproj]; exact bne_self_eq_false _
    simp [expenses_update, hfind, hbne, tryCommit]
  · intro now user eid db e hfind hproj
    have hbne : (e.project_id != user.active_project_id) = false := by
      rw [hproj]; exact bne_self_eq_false _
    simp [expenses_delete, hfind, hbne, tryCommit]
  · intro now newId user title description room_id due_date priority db
    rfl
  · intro now user tid title description room_id due_date priority status db t
      hfind hproj hname
    have hbne : (t.project_id != user.active_project_id) = false := by
      rw [hproj]; exact bne_self_eq_false _
    simp [tasks_update, hfind, hbne, hname, tryCommit]
  · intro now user tid db t hfind hproj
    have hbne : (t.project_id != user.active_project_id) = false := by
      rw [hproj]; exact bne_self_eq_false _
    simp [tasks_delete, hfind, hbne, tryCommit]
  · intro now newId user_id name description db
    rfl
  · intro now user tid status db t hfind hproj hst
    have hbne : (t.project_id != user.active_project_id) = false := by
      rw [hproj]; exact bne_self_eq_false _
    simp [tasks_move, hfind, hbne, hst, bareCommit]
  · intro now ym keyUuid docId user file doc_type title notes tags room_id
      expense_id task_ids photo_group s store db
    rfl
  · intro now user did doc_type photo_group title notes tags room_id
      expense_id task_ids db d hfind hproj
    have hbne : (d.project_id != user.active_project_id) = false := by
      rw [hproj]; exact bne_self_eq_false _
    simp [documents_update, hfind, hbne, bareCommit]
  · intro now user did db d hfind hproj
    have hbne : (d.project_id != user.active_project_id) = false := by
      rw [hproj]; exact bne_self_eq_false _
    simp [documents_delete, hfind, hbne, bareCommit]

/-- A room owned by the fixture user's active project "p1". -/
def oRoom : RoomR :=
  { id := "r1", project_id := "p1", name := "Kitchen", floor := none,
    status := none, created_at := 0, updated_at := 0 }

/-- An expense owned by project "p1". -/
def oExp : ExpenseR := { xExp with id := "e1", project_id := "p1" }

/-- A document owned by project "p1". -/
def oDoc : DocumentR := { xDoc with id := "d1", project_id := "p1" }

/-- A database whose rows all belong to the active project "p1". -/
def oDB : DB :=
  { users := [], projects := [], rooms := [oRoom], tasks := [wTask],
    expenses := [oExp], documents := [oDoc], document_tasks := [] }

/-- An IntegrityError whose message matches the unique-violation
heuristic. -/
def dupExc : ExcInfo :=
  { integrity_error := true,
    message :=
      "ERROR: duplicate key value violates unique constraint uq_room_project_name" }

/-- Witness for C4's amended theorem: concrete commit failures across the
guarded and unguarded handlers. -/
theorem commit_failure_handling_witness :
    rooms_create (some dupExc) 0 "r9" wUser "Bath" "" "" oDB =
      .ok (.redirect "/rooms?err=duplicate") oDB ∧
    rooms_update false 0 wUser "r1" "Bath" "" "" oDB =
      .ok (.redirect "/rooms?err=save_failed") oDB ∧
    rooms_delete false 0 wUser "r1" oDB =
      .ok (.redirect "/rooms?err=delete_failed") oDB ∧
    expenses_update false 0 wUser "e1" 0 50 "d" "" "" none none "" "" "" oDB =
      .ok (.redirect "/expenses?err=save_failed") oDB ∧
    expenses_delete false 0 wUser "e1" oDB =
      .ok (.redirect "/expenses?err=delete_failed") oDB ∧
    tasks_create false 0 "t9" wUser "Tile splashback" "" "" none 3 oDB =
      .ok (.redirect "/tasks?err=save_failed") oDB ∧
    tasks_update false 0 wUser "t1" "T" "" "" none 3 "" oDB =
      .ok (.redirect "/tasks?err=save_failed") oDB ∧
    tasks_delete false 0 wUser "t1" oDB =
      .ok (.redirect "/tasks?err=delete_failed") oDB ∧
    tasks_move false 0 wUser "t1" "doing" oDB = .raised .commitFailed ∧
    documents_update false 0 wUser "d1" "receipt" "" "" "" "" "" "" [] oDB =
      .raised .commitFailed ∧
    documents_delete false 0 wUser "d1" oDB = .raised .commitFailed := by
  obtain ⟨hrc, hru, hrd, -, heu, hed, htc, htu, htd, -, htm, -, hdu, hdd⟩ :=
    commit_failure_handling
  refine ⟨?_, ?_, ?_, ?_, ?_, ?_, ?_, ?_, ?_, ?_, ?_⟩
  · have h := hrc 0 "r9" wUser "Bath" "" "" oDB dupExc (by decide) (by decide)
    rw [h]
    decide
  · exact hru 0 wUser "r1" "Bath" "" "" oDB oRoom rfl rfl (by decide)
      (by decide)
  · exact hrd 0 wUser "r1" oDB oRoom rfl rfl
  · exact heu 0 wUser "e1" 0 50 "d" "" "" none none "" "" "" oDB oExp rfl rfl
  · exact hed 0 wUser "e1" oDB oExp rfl rfl
  · exact htc 0 "t9" wUser "Tile splashback" "" "" none 3 oDB
  · exact htu 0 wUser "t1" "T" "" "" none 3 "" oDB wTask rfl rfl (by decide)
  · exact htd 0 wUser "t1" oDB wTask rfl rfl
  · exact htm 0 wUser "t1" "doing" oDB wTask rfl rfl (by decide)
  · exact hdu 0 wUser "d1" "receipt" "" "" "" "" "" "" [] oDB oDoc rfl rfl
  · exact hdd 0 wUser "d1" oDB oDoc rfl rfl

/-! ## C2 — admin bootstrap idempotence. -/

/-- The user row the bootstrap creates on a fresh install. -/
def seedNewUser (env : Env) : SeedUser :=
  { email := desired_email env,
    password_hash := hash_password (desired_password env),
    display_name := desired_name env }

/-- C2: with ADMIN_UPDATE unset, running the bootstrap twice against the
same database — one satisfying the unique-email constraint and in which a
surviving literal "admin@local" user can only be the desired user itself —
leaves exactly one user row for the configured (desired) email, and the
second run changes nothing. -/
theorem ensure_admin_user_idempotent (env : Env) (db : List SeedUser)
    (hupd : env "ADMIN_UPDATE" = none)
    (huniq : (db.filter (fun u => u.email == desired_email env)).length ≤ 1)
    (hdef : (∀ u ∈ db, u.email ≠ desired_email env) →
            ∀ u ∈ db, u.email ≠ "admin@local") :
    ensure_admin_user env (ensure_admin_user env db) =
      ensure_admin_user env db ∧
    ((ensure_admin_user env db).filter
      (fun u => u.email == desired_email env)).length = 1 := by
  have hdo : admin_do_update env = false := by
    unfold admin_do_update
    rw [hupd]
    decide
  cases hu : db.find? (fun u => u.email == desired_email env) with
  | some u =>
    have h1 : ensure_admin_user env db = db := by
      simp only [ensure_admin_user]
      rw [hu, hdo]
      simp
    have hpu := List.find?_some hu
    have hmem : u ∈ db.filter (fun u => u.email == desired_email env) :=
      List.mem_filter.mpr ⟨List.mem_of_find?_eq_some hu, hpu⟩
    constructor
    · rw [h1, h1]
    · rw [h1]
      have hge := List.length_pos_of_mem hmem
      omega
  | none =>
    have hnone : ∀ x ∈ db, x.email ≠ desired_email env := by
      intro x hx
      have := List.find?_eq_none.mp hu x hx
      simpa using this
    cases hd : db.find? (fun u => u.email == "admin@local") with
    | some u0 =>
      have h2 := hdef hnone u0 (List.mem_of_find?_eq_some hd)
      have h3 : u0.email = "admin@local" := by
        simpa using List.find?_some hd
      exact (h2 h3).elim
    | none =>
      have h1 : ensure_admin_user env db = db ++ [seedNewUser env] := by
        simp only [ensure_admin_user]
        rw [hu, hd]
        rfl
      have hfind2 : (db ++ [seedNewUser env]).find?
          (fun u => u.email == desired_email env) = some (seedNewUser env) := by
        rw [List.find?_append, hu, Option.none_or]
        exact List.find?_cons_of_pos _ (beq_self_eq_true (desired_email env))
      have h2 : ensure_admin_user env (ensure_admin_user env db) =
          ensure_admin_user env db := by
        rw [h1]
        simp only [ensure_admin_user]
        rw [hfind2, hdo]
        simp
      refine ⟨h2, ?_⟩
      rw [h1, List.filter_append]
      have hnil : db.filter (fun u => u.email == desired_email env) = [] := by
        rw [List.filter_eq_nil_iff]
        intro a ha
        simpa using hnone a ha
      rw [hnil]
      simp [seedNewUser]

/-- Witness for C2: first boot on an empty database with every variable
unset, run twice. -/
theorem ensure_admin_user_idempotent_witness :
    noEnv "ADMIN_UPDATE" = none ∧
    ensure_admin_user noEnv (ensure_admin_user noEnv []) =
      ensure_admin_user noEnv [] ∧
    ((ensure_admin_user noEnv []).filter
      (fun u => u.email == desired_email noEnv)).length = 1 := by
  refine ⟨rfl, ?_⟩
  have h := ensure_admin_user_idempotent noEnv [] rfl (by decide)
    (fun _ u hu => absurd hu (List.not_mem_nil u))
  exact h

/-! ## C7 — kanban bucketing is total. -/

/-- The column a status string lands in on the rendered board: its own
column for the three non-default recognised statuses, the "todo" column for
"todo" itself and for every other string. -/
def classify (s : String) : ColId :=
  if s == "doing" then .doing
  else if s == "blocked" then .blocked
  else if s == "done" then .done
  else .todo

/-- Loop invariant, part 1: every key the dict holds aliases the column
`classify` assigns it. -/
def keysOK (l : List (String × ColId)) : Prop :=
  ∀ kv ∈ l, kv.2 = classify kv.1

/-- Loop invariant, part 2: the four recognised keys are present and alias
their own columns. -/
def baseLookups (st : ColsState) : Prop :=
  colLookup st "todo" = some .todo ∧ colLookup st "doing" = some .doing ∧
  colLookup st "blocked" = some .blocked ∧ colLookup st "done" = some .done

theorem colLookup_keys_append (keys l : List (String × ColId))
    (cols cols' : Cols) (k : String) (c : ColId)
    (h : colLookup ⟨keys, cols⟩ k = some c) :
    colLookup ⟨keys ++ l, cols'⟩ k = some c := by
  unfold colLookup at h ⊢
  rw [List.find?_append]
  obtain ⟨kv, hkv, hc⟩ := Option.map_eq_some'.mp h
  rw [hkv]
  simp [hc]

theorem classify_spec (s : String) :
    (classify s = .doing ↔ s = "doing") ∧
    (classify s = .blocked ↔ s = "blocked") ∧
    (classify s = .done ↔ s = "done") ∧
    (classify s = .todo ↔ ¬(s = "doing") ∧ ¬(s = "blocked") ∧ ¬(s = "done")) := by
  unfold classify
  by_cases h1 : s = "doing"
  · subst h1; decide
  · by_cases h2 : s = "blocked"
    · subst h2; decide
    · by_cases h3 : s = "done"
      · subst h3; decide
      · simp [h1, h2, h3]

theorem boardStep_effect (st : ColsState) (t : TaskR)
    (hOK : keysOK st.keys) (hbase : baseLookups st) :
    (boardStep st t).cols = colsAppend st.cols (classify t.status) t ∧
    keysOK (boardStep st t).keys ∧ baseLookups (boardStep st t) := by
  obtain ⟨hT, hDg, hBl, hDn⟩ := hbase
  cases hl : colLookup st t.status with
  | some cid =>
    have hcid : cid = classify t.status := by
      obtain ⟨kv, hkv, hc⟩ := Option.map_eq_some'.mp hl
      have hkey : kv.1 = t.status := by simpa using List.find?_some hkv
      rw [← hc, hOK kv (List.mem_of_find?_eq_some hkv), hkey]
    refine ⟨?_, ?_, ?_, ?_, ?_, ?_⟩ <;> simp only [boardStep, hl]
    · rw [hcid]
    · exact hOK
    · exact hT
    · exact hDg
    · exact hBl
    · exact hDn
  | none =>
    have hne : ∀ (k : String) (c : ColId), colLookup st k = some c →
        t.status ≠ k := by
      intro k c hk h
      rw [h, hk] at hl
      exact Option.noConfusion hl
    have hcl : classify t.status = .todo :=
      (classify_spec t.status).2.2.2.mpr
        ⟨hne _ _ hDg, hne _ _ hBl, hne _ _ hDn⟩
    refine ⟨?_, ?_, ?_, ?_, ?_, ?_⟩ <;> simp only [boardStep, hl]
    · rw [hcl]
    · intro kv hkv
      rcases List.mem_append.mp hkv with h | h
      · exact hOK kv h
      · rw [List.mem_singleton.mp h, hcl]
    · exact colLookup_keys_append st.keys _ st.cols _ "todo" .todo hT
    · exact colLookup_keys_append st.keys _ st.cols _ "doing" .doing hDg
    · exact colLookup_keys_append st.keys _ st.cols _ "blocked" .blocked hBl
    · exact colLookup_keys_append st.keys _ st.cols _ "done" .done hDn

theorem board_fold (ts : List TaskR) : ∀ (st : ColsState),
    keysOK st.keys → baseLookups st →
    (ts.foldl boardStep st).cols.todo =
      st.cols.todo ++ ts.filter (fun t => classify t.status == ColId.todo) ∧
    (ts.foldl boardStep st).cols.doing =
      st.cols.doing ++ ts.filter (fun t => classify t.status == ColId.doing) ∧
    (ts.foldl boardStep st).cols.blocked =
      st.cols.blocked ++ ts.filter (fun t => classify t.status == ColId.blocked) ∧
    (ts.foldl boardStep st).cols.done =
      st.cols.done ++ ts.filter (fun t => classify t.status == ColId.done) := by
  induction ts with
  | nil => intro st h1 h2; simp
  | cons t ts ih =>
    intro st h1 h2
    obtain ⟨hcols, hOK', hbase'⟩ := boardStep_effect st t h1 h2
    obtain ⟨iht, ihdg, ihbl, ihdn⟩ := ih (boardStep st t) hOK' hbase'
    rw [List.foldl_cons]
    refine ⟨?_, ?_, ?_, ?_⟩
    · rw [iht, hcols]
      cases hc : classify t.status <;>
        simp [colsAppend, List.filter_cons, hc]
    · rw [ihdg, hcols]
      cases hc : classify t.status <;>
        simp [colsAppend, List.filter_cons, hc]
    · rw [ihbl, hcols]
      cases hc : classify t.status <;>
        simp [colsAppend, List.filter_cons, hc]
    · rw [ihdn, hcols]
      cases hc : classify t.status <;>
        simp [colsAppend, List.filter_cons, hc]

theorem classify_bool (s : String) :
    ((classify s == ColId.todo) =
      (!(s == "doing") && !(s == "blocked") && !(s == "done"))) ∧
    ((classify s == ColId.doing) = (s == "doing")) ∧
    ((classify s == ColId.blocked) = (s == "blocked")) ∧
    ((classify s == ColId.done) = (s == "done")) := by
  by_cases h1 : s = "doing"
  · subst h1; decide
  · by_cases h2 : s = "blocked"
    · subst h2; decide
    · by_cases h3 : s = "done"
      · subst h3; decide
      · have hcl : classify s = .todo :=
          (classify_spec s).2.2.2.mpr ⟨h1, h2, h3⟩
        simp [hcl, h1, h2, h3]

/-- C7: the board bucketing is total — every task whose status is one of
todo/doing/blocked/done lands in that column, and a task with any other
status string lands in the "todo" column (none are dropped), order
preserved. -/
theorem tasks_board_bucketing_total (tasks : List TaskR) :
    tasks_board_cols tasks =
      { todo := tasks.filter (fun t => !(t.status == "doing") &&
          !(t.status == "blocked") && !(t.status == "done")),
        doing := tasks.filter (fun t => t.status == "doing"),
        blocked := tasks.filter (fun t => t.status == "blocked"),
        done := tasks.filter (fun t => t.status == "done") } := by
  obtain ⟨ht, hdg, hbl, hdn⟩ :=
    board_fold tasks boardInit (by unfold keysOK; decide) ⟨rfl, rfl, rfl, rfl⟩
  have ext : ∀ (c d : Cols), c.todo = d.todo → c.doing = d.doing →
      c.blocked = d.blocked → c.done = d.done → c = d := by
    intro c d e1 e2 e3 e4
    cases c; cases d
    simp_all
  unfold tasks_board_cols
  apply ext
  · rw [ht, List.filter_congr (fun t _ => (classify_bool t.status).1)]
    rfl
  · rw [hdg, List.filter_congr (fun t _ => (classify_bool t.status).2.1)]
    rfl
  · rw [hbl, List.filter_congr (fun t _ => (classify_bool t.status).2.2.1)]
    rfl
  · rw [hdn, List.filter_congr (fun t _ => (classify_bool t.status).2.2.2)]
    rfl

/-! ## C6 — tag normalization refines the specification pipeline.

The source strips the raw value, replaces semicolons by commas and splits on
commas; the specification describes one split on commas and semicolons over
the raw input.  The lemmas below show the replace-then-split equals the
two-separator split, and that the initial strip is absorbed by the per-token
trim. -/

/-- Apply `f` to the last element only. -/
def mapLast {α : Type} (f : α → α) : List α → List α
  | [] => []
  | [x] => [f x]
  | x :: y :: t => x :: mapLast f (y :: t)

theorem splitOnPred_ne_nil (sep : Char → Bool) (l : List Char) :
    splitOnPred sep l ≠ [] := by
  cases l with
  | nil => simp [splitOnPred]
  | cons c cs =>
    simp only [splitOnPred]
    by_cases h : sep c = true
    · simp [h]
    · simp only [h, Bool.false_eq_true, ite_false]
      cases hs : splitOnPred sep cs <;> simp

theorem split_replace (l : List Char) :
    splitOnPred (fun c => c == ',')
      (l.map (fun c => if c == ';' then ',' else c)) =
    splitOnPred (fun c => c == ',' || c == ';') l := by
  induction l with
  | nil => rfl
  | cons c cs ih =>
    simp only [List.map_cons, splitOnPred]
    by_cases h1 : c = ';'
    · subst h1
      simpa using ih
    · by_cases h2 : c = ','
      · subst h2
        simpa using ih
      · have hr : (if c == ';' then ',' else c) = c := by simp [h1]
        have hc1 : (c == ',') = false := by simp [h2]
        have hc3 : (c == ';') = false := by simp [h1]
        rw [hr]
        simp only [hc1, hc3, Bool.or_self, Bool.false_eq_true, ite_false, ih]

theorem split_dropLeading (sep : Char → Bool)
    (hsep : ∀ c, sep c = true → pyIsSpace c = false) (l : List Char) :
    splitOnPred sep (l.dropWhile pyIsSpace) =
      match splitOnPred sep l with
      | [] => []
      | h :: t => h.dropWhile pyIsSpace :: t := by
  induction l with
  | nil => rfl
  | cons c cs ih =>
    by_cases hs : pyIsSpace c = true
    · have hsc : sep c = false := by
        cases hsepc : sep c with
        | false => rfl
        | true => rw [hsep c hsepc] at hs; exact Bool.noConfusion hs
      rw [List.dropWhile_cons_of_pos hs, ih]
      simp only [splitOnPred, hsc, Bool.false_eq_true, ite_false]
      cases hcs : splitOnPred sep cs with
      | nil => exact absurd hcs (splitOnPred_ne_nil sep cs)
      | cons h t =>
        simp [List.dropWhile_cons_of_pos hs]
    · rw [List.dropWhile_cons_of_neg (by simpa using hs)]
      simp only [splitOnPred]
      by_cases hsc : sep c = true
      · simp [hsc]
      · simp only [hsc, Bool.false_eq_true, ite_false]
        cases hcs : splitOnPred sep cs with
        | nil => exact absurd hcs (splitOnPred_ne_nil sep cs)
        | cons h t =>
          simp [List.dropWhile_cons_of_neg (by simpa using hs)]

theorem dropTrailWhile_eq_nil (p : Char → Bool) (l : List Char) :
    dropTrailWhile p l = [] ↔ ∀ c ∈ l, p c = true := by
  induction l with
  | nil => simp [dropTrailWhile]
  | cons c cs ih =>
    simp only [dropTrailWhile]
    constructor
    · intro h c' hc'
      by_cases hcond : ((dropTrailWhile p cs).isEmpty && p c) = true
      · obtain ⟨he, hpc⟩ := Bool.and_eq_true_iff.mp hcond
        rcases List.mem_cons.mp hc' with h' | h'
        · rw [h']; exact hpc
        · exact ih.mp (List.isEmpty_iff.mp he) c' h'
      · rw [if_neg hcond] at h
        exact absurd h (by simp)
    · intro hall
      have h1 : dropTrailWhile p cs = [] :=
        ih.mpr (fun a ha => hall a (List.mem_cons_of_mem c ha))
      have h2 : p c = true := hall c (List.mem_cons_self c cs)
      rw [h1, h2]
      simp

theorem splitOnPred_eq_single (sep : Char → Bool) (l x : List Char)
    (h : splitOnPred sep l = [x]) : l = x := by
  induction l generalizing x with
  | nil =>
    simp only [splitOnPred] at h
    exact (List.cons.injEq _ _ _ _).mp h |>.1
  | cons c cs ih =>
    simp only [splitOnPred] at h
    by_cases hsc : sep c = true
    · rw [if_pos hsc] at h
      obtain ⟨-, h2⟩ := (List.cons.injEq _ _ _ _).mp h
      exact absurd h2 (splitOnPred_ne_nil sep cs)
    · rw [if_neg hsc] at h
      cases hcs : splitOnPred sep cs with
      | nil => exact absurd hcs (splitOnPred_ne_nil sep cs)
      | cons h0 t =>
        rw [hcs] at h
        obtain ⟨h1, h2⟩ := (List.cons.injEq _ _ _ _).mp h
        subst h2
        have := ih h0 hcs
        rw [this, h1]

theorem mapLast_ne_nil {α : Type} (f : α → α) (x : α) (xs : List α) :
    mapLast f (x :: xs) ≠ [] := by
  cases xs <;> simp [mapLast]

theorem mapLast_eq_single {α : Type} (f : α → α) (h : α) (t : List α) (y : α)
    (he : mapLast f (h :: t) = [y]) : t = [] ∧ f h = y := by
  cases t with
  | nil =>
    simp only [mapLast] at he
    exact ⟨rfl, ((List.cons.injEq _ _ _ _).mp he).1⟩
  | cons a b =>
    simp only [mapLast] at he
    obtain ⟨-, h2⟩ := (List.cons.injEq _ _ _ _).mp he
    exact absurd h2 (mapLast_ne_nil f a b)

theorem splitOnPred_cons_pos (sep : Char → Bool) (c : Char) (cs : List Char)
    (h : sep c = true) :
    splitOnPred sep (c :: cs) = [] :: splitOnPred sep cs := by
  simp [splitOnPred, h]

theorem splitOnPred_cons_neg (sep : Char → Bool) (c : Char) (cs : List Char)
    (h : sep c = false) :
    splitOnPred sep (c :: cs) =
      match splitOnPred sep cs with
      | [] => [[c]]
      | h0 :: t => (c :: h0) :: t := by
  simp [splitOnPred, h]

theorem split_dropTrail (sep : Char → Bool)
    (hsep : ∀ c, sep c = true → pyIsSpace c = false) (l : List Char) :
    splitOnPred sep (dropTrailWhile pyIsSpace l) =
      mapLast (dropTrailWhile pyIsSpace) (splitOnPred sep l) := by
  induction l with
  | nil => rfl
  | cons c cs ih =>
    simp only [dropTrailWhile]
    cases hr : dropTrailWhile pyIsSpace cs with
    | nil =>
      rw [hr] at ih
      cases hcs : splitOnPred sep cs with
      | nil => exact absurd hcs (splitOnPred_ne_nil sep cs)
      | cons h t =>
        rw [hcs] at ih
        obtain ⟨ht0, hDTh⟩ := mapLast_eq_single _ h t [] ih.symm
        subst ht0
        have hcs_eq : cs = h := splitOnPred_eq_single sep cs h hcs
        have hall_h : ∀ c' ∈ h, pyIsSpace c' = true :=
          (dropTrailWhile_eq_nil _ _).mp (by rw [← hcs_eq]; exact hr)
        by_cases hs : pyIsSpace c = true
        · have hsc : sep c = false := by
            cases hsepc : sep c with
            | false => rfl
            | true => rw [hsep c hsepc] at hs; exact Bool.noConfusion hs
          simp only [List.isEmpty_nil, hs, Bool.and_true, Bool.true_and,
            ite_true]
          rw [splitOnPred_cons_neg sep c cs hsc, hcs]
          simp only [mapLast]
          have hz : dropTrailWhile pyIsSpace (c :: h) = [] := by
            rw [dropTrailWhile_eq_nil]
            intro c' hc'
            rcases List.mem_cons.mp hc' with h' | h'
            · rw [h']; exact hs
            · exact hall_h c' h'
          rw [hz]
          rfl
        · have hs' : pyIsSpace c = false := by
            cases hx : pyIsSpace c with
            | false => rfl
            | true => exact absurd hx hs
          simp only [List.isEmpty_nil, Bool.true_and, hs',
            Bool.false_eq_true, ite_false]
          by_cases hsc : sep c = true
          · rw [splitOnPred_cons_pos sep c [] hsc,
              splitOnPred_cons_pos sep c cs hsc, hcs]
            simp only [mapLast, splitOnPred, hDTh]
          · have hsc' : sep c = false := by
              cases hx : sep c with
              | false => rfl
              | true => exact absurd hx hsc
            rw [splitOnPred_cons_neg sep c [] hsc',
              splitOnPred_cons_neg sep c cs hsc', hcs]
            simp only [splitOnPred, mapLast]
            have hz : dropTrailWhile pyIsSpace (c :: h) = [c] := by
              simp [dropTrailWhile, hDTh, hs']
            rw [hz]
    | cons x xs =>
      rw [hr] at ih
      simp only [List.isEmpty_cons, Bool.false_and, Bool.false_eq_true,
        ite_false]
      cases hcs : splitOnPred sep cs with
      | nil => exact absurd hcs (splitOnPred_ne_nil sep cs)
      | cons h t =>
        rw [hcs] at ih
        by_cases hsc : sep c = true
        · rw [splitOnPred_cons_pos sep c (x :: xs) hsc,
            splitOnPred_cons_pos sep c cs hsc, hcs, ih]
          cases t <;> simp [mapLast]
        · have hsc' : sep c = false := by
            cases hx : sep c with
            | false => rfl
            | true => exact absurd hx hsc
          rw [splitOnPred_cons_neg sep c (x :: xs) hsc',
            splitOnPred_cons_neg sep c cs hsc', hcs, ih]
          cases t with
          | nil =>
            simp only [mapLast]
            have hh : dropTrailWhile pyIsSpace h = x :: xs := by
              rw [← splitOnPred_eq_single sep cs h hcs]
              exact hr
            have hz : dropTrailWhile pyIsSpace (c :: h) =
                c :: dropTrailWhile pyIsSpace h := by
              simp [dropTrailWhile, hh]
            rw [hz]
          | cons h' t' =>
            simp [mapLast]

theorem dropWhile_idem (p : Char → Bool) (l : List Char) :
    (l.dropWhile p).dropWhile p = l.dropWhile p := by
  induction l with
  | nil => rfl
  | cons c cs ih =>
    by_cases h : p c = true
    · rw [List.dropWhile_cons_of_pos h, ih]
    · rw [List.dropWhile_cons_of_neg (by simpa using h),
        List.dropWhile_cons_of_neg (by simpa using h)]

theorem dropTrailWhile_cons (p : Char → Bool) (c : Char) (cs : List Char) :
    dropTrailWhile p (c :: cs) =
      if (dropTrailWhile p cs).isEmpty && p c then []
      else c :: dropTrailWhile p cs := rfl

theorem dropWhile_eq_nil_of_all (p : Char → Bool) (l : List Char)
    (hall : ∀ c ∈ l, p c = true) : l.dropWhile p = [] := by
  induction l with
  | nil => rfl
  | cons a b ih =>
    rw [List.dropWhile_cons_of_pos (hall a (List.mem_cons_self a b))]
    exact ih (fun x hx => hall x (List.mem_cons_of_mem a hx))

theorem dropTrailWhile_idem (p : Char → Bool) (l : List Char) :
    dropTrailWhile p (dropTrailWhile p l) = dropTrailWhile p l := by
  induction l with
  | nil => rfl
  | cons c cs ih =>
    rw [dropTrailWhile_cons]
    cases hr : dropTrailWhile p cs with
    | nil =>
      cases hp : p c
      · simp only [List.isEmpty_nil, Bool.true_and, hp, Bool.false_eq_true,
          ite_false]
        rw [dropTrailWhile_cons]
        simp [dropTrailWhile, hp]
      · simp only [List.isEmpty_nil, Bool.true_and, hp, ite_true]
        rfl
    | cons x xs =>
      simp only [List.isEmpty_cons, Bool.false_and, Bool.false_eq_true,
        ite_false]
      rw [hr] at ih
      rw [dropTrailWhile_cons, ih]
      simp

theorem dropWhile_dropTrail_comm (l : List Char) :
    (dropTrailWhile pyIsSpace l).dropWhile pyIsSpace =
      dropTrailWhile pyIsSpace (l.dropWhile pyIsSpace) := by
  induction l with
  | nil => rfl
  | cons c cs ih =>
    rw [dropTrailWhile_cons]
    by_cases hs : pyIsSpace c = true
    · rw [List.dropWhile_cons_of_pos hs]
      cases hr : dropTrailWhile pyIsSpace cs with
      | nil =>
        have hall : ∀ c' ∈ cs, pyIsSpace c' = true :=
          (dropTrailWhile_eq_nil _ _).mp hr
        have hdw : cs.dropWhile pyIsSpace = [] :=
          dropWhile_eq_nil_of_all _ _ hall
        rw [hdw]
        simp [hs, dropTrailWhile]
      | cons x xs =>
        simp only [List.isEmpty_cons, Bool.false_and, Bool.false_eq_true,
          ite_false]
        rw [List.dropWhile_cons_of_pos hs, ← hr, ih]
    · have hs' : pyIsSpace c = false := by
        cases hx : pyIsSpace c with
        | false => rfl
        | true => exact absurd hx hs
      simp only [hs', Bool.and_false, Bool.false_eq_true, ite_false]
      rw [List.dropWhile_cons_of_neg (by simpa using hs),
        List.dropWhile_cons_of_neg (by simpa using hs), dropTrailWhile_cons]
      simp [hs']

theorem pyStripList_dropWhile (l : List Char) :
    pyStripList (l.dropWhile pyIsSpace) = pyStripList l := by
  unfold pyStripList
  rw [dropWhile_idem]

theorem pyStripList_dropTrail (l : List Char) :
    pyStripList (dropTrailWhile pyIsSpace l) = pyStripList l := by
  unfold pyStripList
  rw [dropWhile_dropTrail_comm, dropTrailWhile_idem]

theorem mapTrim_mapLast (X : List (List Char)) :
    (mapLast (dropTrailWhile pyIsSpace) X).map
      (fun t => String.mk (pyStripList t)) =
    X.map (fun t => String.mk (pyStripList t)) := by
  induction X with
  | nil => rfl
  | cons x xs ih =>
    cases xs with
    | nil => simp [mapLast, pyStripList_dropTrail]
    | cons y t =>
      simp only [mapLast, List.map_cons] at ih ⊢
      rw [ih]

theorem mapTrim_split_strip (sep : Char → Bool)
    (hsep : ∀ c, sep c = true → pyIsSpace c = false) (l : List Char) :
    (splitOnPred sep (pyStripList l)).map
      (fun t => String.mk (pyStripList t)) =
    (splitOnPred sep l).map (fun t => String.mk (pyStripList t)) := by
  have h0 : pyStripList l = dropTrailWhile pyIsSpace (l.dropWhile pyIsSpace) :=
    rfl
  rw [h0, split_dropTrail sep hsep (l.dropWhile pyIsSpace), mapTrim_mapLast,
    split_dropLeading sep hsep l]
  cases hcs : splitOnPred sep l with
  | nil => rfl
  | cons h t =>
    simp only [List.map_cons]
    rw [pyStripList_dropWhile h]

/-! De-duplication: the seen-set loop equals the first-seen recursion. -/

def nubSkip (key : String → String) : List String → List String → List String
  | [], _ => []
  | p :: ps, seen =>
    if strMem (key p) seen then nubSkip key ps seen
    else p :: nubSkip key ps (key p :: seen)

theorem dedupeLoop_go (key : String → String) (parts : List String) :
    ∀ (seen out : List String),
    (parts.foldl (dedupeStep key) (seen, out)).2 = out ++ nubSkip key parts seen := by
  induction parts with
  | nil => intro seen out; simp [nubSkip]
  | cons p ps ih =>
    intro seen out
    simp only [List.foldl_cons, dedupeStep, nubSkip]
    by_cases h : strMem (key p) seen = true
    · simp [h, ih]
    · simp only [h, Bool.false_eq_true, ite_false]
      rw [ih (key p :: seen) (out ++ [p])]
      simp

theorem nubSkip_eq (key : String → String) (parts : List String) :
    ∀ (seen : List String),
    nubSkip key parts seen =
      dedupeFirstSeen key (parts.filter (fun p => !(strMem (key p) seen))) := by
  induction parts with
  | nil => intro seen; simp [nubSkip, dedupeFirstSeen]
  | cons p ps ih =>
    intro seen
    simp only [nubSkip, List.filter_cons]
    by_cases h : strMem (key p) seen = true
    · simp only [h, Bool.not_true, Bool.false_eq_true, ite_false, ite_true]
      exact ih seen
    · have hb : strMem (key p) seen = false := by
        cases hx : strMem (key p) seen with
        | false => rfl
        | true => exact absurd hx h
      simp only [hb, Bool.false_eq_true, ite_false, Bool.not_false, ite_true,
        dedupeFirstSeen]
      rw [ih (key p :: seen), List.filter_filter]
      congr 1
      congr 1
      apply List.filter_congr
      intro a _
      simp [strMem, Bool.not_or]

theorem dedupeLoop_eq (key : String → String) (l : List String) :
    dedupeLoop key l = dedupeFirstSeen key l := by
  unfold dedupeLoop
  rw [dedupeLoop_go key l [] [], nubSkip_eq key l []]
  simp only [strMem, Bool.not_false, List.filter_true, List.nil_append]

/-- C6: tag normalization equals the specification pipeline — split on
commas and semicolons, trim each token, drop empties, de-duplicate
case-insensitively keeping the first-seen casing and order, rejoin with
commas, absent when nothing remains — and the spec's concrete example
evaluates as stated. -/
theorem norm_tags_matches_spec :
    (∀ v : String, _norm_tags v = normTagsSpec v) ∧
    _norm_tags " Kitchen, plaster ;Kitchen, invoice " =
      some "Kitchen,plaster,invoice" := by
  constructor
  · intro v
    have hsep : ∀ c, (c == ',' || c == ';') = true → pyIsSpace c = false := by
      intro c hc
      rcases Bool.or_eq_true_iff.mp hc with h | h
      · rw [eq_of_beq h]; rfl
      · rw [eq_of_beq h]; rfl
    have hkey : ((splitOnPred (fun c => c == ',')
        ((pyStrip v).data.map (fun c => if c == ';' then ',' else c))).map
        (fun t => String.mk (pyStripList t))) =
        ((splitOnPred (fun c => c == ',' || c == ';') v.data).map
          (fun t => String.mk (pyStripList t))) := by
      rw [split_replace ((pyStrip v).data)]
      exact mapTrim_split_strip _ hsep v.data
    by_cases hraw : (pyStrip v == "") = true
    · have h1 : pyStrip v = "" := eq_of_beq hraw
      have hempty : pyStripList v.data = [] := by
        have := congrArg String.data h1
        simpa [pyStrip] using this
      have h2 : ((splitOnPred (fun c => c == ',' || c == ';') v.data).map
          (fun t => String.mk (pyStripList t))) = [""] := by
        rw [← mapTrim_split_strip _ hsep v.data, hempty]
        rfl
      simp only [_norm_tags, normTagsSpec, hraw, ite_true, h2]
      simp [dedupeFirstSeen]
    · have hraw' : (pyStrip v == "") = false := by
        cases hx : (pyStrip v == "") with
        | false => rfl
        | true => exact absurd hx hraw
      simp only [_norm_tags, normTagsSpec, hraw', Bool.false_eq_true,
        ite_false]
      rw [hkey, dedupeLoop_eq]
      cases hp : ((splitOnPred (fun c => c == ',' || c == ';') v.data).map
          (fun t => String.mk (pyStripList t))).filter
          (fun p => !(p == "")) with
      | nil => simp [dedupeFirstSeen]
      | cons a as => simp [dedupeFirstSeen]
  · rfl

end RenoTracker
